import Mathlib

/-!
# Frontend ports and health probes of the Application Gateway ingress controller

A shallow embedding of `pkg/appgw/frontend_ports.go` and `pkg/appgw/health_probes.go`.

Conventions of the embedding:

* `int32` values are integers; the code performs no arithmetic on them.
* A pointer that the code tests against `nil`, or that the Kubernetes API leaves
  optional, is an `Option`; dereferencing `none` is the fault `Fault.nilDereference`.
* A Go `map` is an association list with distinct keys; a `map[K]interface{}` used as a
  set is the list of its keys. Go does not fix the order in which `range` visits a map,
  so every `range` over a map takes its visiting order from a `RangeOrder`.
* Functions of the repository that the embedded files call but do not define are the
  fields of `Helpers`; the cluster cache is `k8sContext`.
-/

set_option linter.dupNamespace false

namespace AppGw

/-! ## API types (the fields the code reads) -/

/-- The tag of `intstr.IntOrString`. -/
inductive IntstrType where
  | Int
  | String
deriving DecidableEq

/-- Kubernetes `intstr.IntOrString`: a tagged pair of an `int32` and a string. -/
structure IntOrString where
  Typ : IntstrType
  IntVal : Int
  StrVal : String
deriving DecidableEq

/-- `IntOrString.String()`: the string value for a string, the decimal text otherwise. -/
def IntOrString.String (x : IntOrString) : String :=
  match x.Typ with
  | IntstrType.String => x.StrVal
  | IntstrType.Int => toString x.IntVal

/-- `v1beta1.IngressBackend`. -/
structure IngressBackend where
  ServiceName : String
  ServicePort : IntOrString
deriving DecidableEq

/-- `v1beta1.HTTPIngressPath`. -/
structure HTTPIngressPath where
  Path : String
  Backend : IngressBackend
deriving DecidableEq

/-- `v1beta1.IngressRule`; `HTTP` is the optional list of HTTP paths. -/
structure IngressRule where
  Host : String
  HTTP : Option (List HTTPIngressPath)
deriving DecidableEq

/-- `v1beta1.Ingress`. -/
structure Ingress where
  Name : String
  Namespace : String
  Annotations : List (String × String)
  Backend : Option IngressBackend
  Rules : List IngressRule
deriving DecidableEq

/-- The key identifying one routing target: the service identifier (`Namespace`, `Name`),
the owning ingress, the optional rule and path, and the backend. -/
structure backendIdentifier where
  Namespace : String
  Name : String
  Ingress : Ingress
  Rule : Option IngressRule
  Path : Option HTTPIngressPath
  Backend : IngressBackend
deriving DecidableEq

/-- `serviceIdentifier.serviceKey()`: the cache key `namespace/name`. -/
def backendIdentifier.serviceKey (b : backendIdentifier) : String :=
  b.Namespace ++ "/" ++ b.Name

/-- `v1.HTTPGetAction`. -/
structure HTTPGetAction where
  Path : String
  Host : String
  Scheme : String
deriving DecidableEq

/-- `v1.Handler`. -/
structure Handler where
  HTTPGet : Option HTTPGetAction
deriving DecidableEq

/-- `v1.Probe`. -/
structure Probe where
  Handler : Handler
  TimeoutSeconds : Int
  PeriodSeconds : Int
  FailureThreshold : Int
deriving DecidableEq

/-- `v1.ContainerPort`. -/
structure ContainerPort where
  Name : String
  ContainerPort : Int
deriving DecidableEq

/-- `v1.Container`. -/
structure Container where
  Name : String
  Ports : List ContainerPort
  LivenessProbe : Option Probe
  ReadinessProbe : Option Probe
deriving DecidableEq

/-- `v1.Pod` (its `Spec.Containers`). -/
structure Pod where
  Name : String
  Containers : List Container
deriving DecidableEq

/-- `v1.ServicePort`. -/
structure ServicePort where
  Name : String
  Protocol : String
  Port : Int
  TargetPort : IntOrString
deriving DecidableEq

/-- `v1.Service` (its `Spec.Ports` and `Spec.Selector`). -/
structure Service where
  Ports : List ServicePort
  Selector : List (String × String)
deriving DecidableEq

/-- `v1.ProtocolTCP`. -/
def ProtocolTCP : String := "TCP"

/-- `v1.URISchemeHTTPS`. -/
def URISchemeHTTPS : String := "HTTPS"

/-- `network.ApplicationGatewayProtocol`. -/
inductive ApplicationGatewayProtocol where
  | HTTP
  | HTTPS
deriving DecidableEq

/-- `network.ApplicationGatewayProbe` with its properties format flattened. -/
structure ApplicationGatewayProbe where
  Name : String
  Protocol : ApplicationGatewayProtocol
  Host : String
  Path : String
  Interval : Int
  Timeout : Int
  UnhealthyThreshold : Int
deriving DecidableEq

/-- `network.ApplicationGatewayFrontendPort`. -/
structure ApplicationGatewayFrontendPort where
  Etag : String
  Name : String
  Port : Int
deriving DecidableEq

/-! ## Faults, maps and iteration order -/

/-- A run-time fault of the Go code. -/
inductive Fault where
  | nilDereference
deriving DecidableEq

deriving instance DecidableEq for Except

/-- The order in which one `range` loop visits the entries of a Go map: any
rearrangement of the entries. -/
structure RangeOrder (α : Type) where
  iter : List α → List α
  perm : ∀ l, List.Perm (iter l) l

/-- The visiting order that follows the stored order. -/
def RangeOrder.stored (α : Type) : RangeOrder α :=
  ⟨fun l => l, fun l => List.Perm.refl l⟩

/-- The visiting order that reverses the stored order. -/
def RangeOrder.reversed (α : Type) : RangeOrder α :=
  ⟨fun l => l.reverse, fun l => List.reverse_perm l⟩

/-- `set[k] = nil` on a `map[K]interface{}`. -/
def setAdd {K : Type} [DecidableEq K] (s : List K) (k : K) : List K :=
  if k ∈ s then s else s ++ [k]

/-- `m[k] = v` on a Go map. -/
def mapSet {K V : Type} [DecidableEq K] : List (K × V) → K → V → List (K × V)
  | [], k, v => [(k, v)]
  | (k', v') :: rest, k, v =>
    if k' = k then (k, v) :: rest else (k', v') :: mapSet rest k v

/-- `m[k]` on a Go map, with absence made explicit. -/
def mapGet {K V : Type} [DecidableEq K] : List (K × V) → K → Option V
  | [], _ => none
  | (k', v') :: rest, k => if k' = k then some v' else mapGet rest k

/-- The keys of a Go map. -/
def mapKeys {K V : Type} (m : List (K × V)) : List K :=
  m.map Prod.fst

/-- The values of a Go map. -/
def mapValues {K V : Type} (m : List (K × V)) : List V :=
  m.map Prod.snd

/-! ## Collaborators -/

/-- The cluster cache read by the builder. -/
structure k8sContext where
  GetService : String → Option Service
  GetPodsByServiceSelector : List (String × String) → List Pod

/-- Functions of the repository that the embedded files call and do not define.
`processIngressRules` gives the keys of the frontend-port set of one ingress,
`newBackendIds` the keys of the backend-identifier set, `resolvePortName` the keys of
the resolved port set; `BackendPathPrefix` is `none` when the annotation lookup
returns an error; `defaultFrontendPort` is `defaultFrontendListenerIdentifier().FrontendPort`. -/
structure Helpers where
  processIngressRules : Ingress → List Int
  defaultFrontendPort : Int
  generateFrontendPortName : Int → String
  newBackendIds : List Ingress → List backendIdentifier
  defaultProbe : ApplicationGatewayProbe
  generateProbeName : String → String → String → String
  BackendPathPrefix : Ingress → Option String
  resolvePortName : String → backendIdentifier → List Int

/-- The configuration builder: the cluster cache and the helper functions. -/
structure appGwConfigBuilder where
  k8sContext : k8sContext
  helpers : Helpers

/-! ## `frontend_ports.go` -/

/-- The inner loop of `getFrontendPorts`: add every port of one ingress to the set. -/
def addPorts (allPorts : List Int) (fePorts : List Int) : List Int :=
  fePorts.foldl setAdd allPorts

/-- The first loop of `getFrontendPorts`: the set of ports of all ingresses. The
`range` over the port set of each ingress visits it in the order `roIngress` gives. -/
def collectPorts (builder : appGwConfigBuilder) (roIngress : RangeOrder Int) :
    List Ingress → List Int → List Int
  | [], allPorts => allPorts
  | ingress :: rest, allPorts =>
    collectPorts builder roIngress rest
      (addPorts allPorts (roIngress.iter (builder.helpers.processIngressRules ingress)))

/-- One entry of the result of `getFrontendPorts`. -/
def newFrontendPort (builder : appGwConfigBuilder) (port : Int) :
    ApplicationGatewayFrontendPort :=
  { Etag := "*", Name := builder.helpers.generateFrontendPortName port, Port := port }

/-- `getFrontendPorts`: collect the ports of all ingresses, fall back to the default
listener's port when there is none, and emit one entry per port in the order in which
`range` visits the set (`roAll`). -/
def getFrontendPorts (builder : appGwConfigBuilder) (roIngress roAll : RangeOrder Int)
    (ingressList : List Ingress) : List ApplicationGatewayFrontendPort :=
  let allPorts := collectPorts builder roIngress ingressList []
  let allPorts :=
    if allPorts.length = 0 then setAdd allPorts builder.helpers.defaultFrontendPort
    else allPorts
  (roAll.iter allPorts).map (newFrontendPort builder)

/-! ## `health_probes.go`: `getProbeForServiceContainer` -/

/-- The test of lines 113-115: the service port matches the backend's service port
specifier by port number, by name or by target port, each compared as text. -/
def servicePortMatches (sp : ServicePort) (backendID : backendIdentifier) : Bool :=
  decide (toString sp.Port = backendID.Backend.ServicePort.String) ||
  decide (sp.Name = backendID.Backend.ServicePort.String) ||
  decide (sp.TargetPort.String = backendID.Backend.ServicePort.String)

/-- Lines 118-127: the target ports one matched service port adds to the set. -/
def addTargetPorts (c : appGwConfigBuilder) (backendID : backendIdentifier)
    (sp : ServicePort) (allPorts : List Int) : List Int :=
  if sp.TargetPort.String = "" then
    setAdd allPorts sp.Port
  else if sp.TargetPort.Typ = IntstrType.Int then
    setAdd allPorts sp.TargetPort.IntVal
  else
    (c.helpers.resolvePortName sp.TargetPort.StrVal backendID).foldl setAdd allPorts

/-- The loop of lines 108-129 over the ports of the service. The set it builds is only
asked for membership afterwards, so the order in which the inner `range` adds the
resolved ports does not show. -/
def resolveTargetPorts (c : appGwConfigBuilder) (backendID : backendIdentifier) :
    List ServicePort → List Int → List Int
  | [], allPorts => allPorts
  | sp :: rest, allPorts =>
    if sp.Protocol ≠ ProtocolTCP then
      resolveTargetPorts c backendID rest allPorts
    else if servicePortMatches sp backendID then
      resolveTargetPorts c backendID rest (addTargetPorts c backendID sp allPorts)
    else
      resolveTargetPorts c backendID rest allPorts

/-- The second branch of lines 139-144: the liveness probe when it has an HTTP-GET
handler. -/
def livenessChoice (container : Container) : Option Probe :=
  match container.LivenessProbe with
  | some l =>
    match l.Handler.HTTPGet with
    | some _ => some l
    | none => none
  | none => none

/-- Lines 139-144: the readiness probe when it has an HTTP-GET handler, else the
liveness probe when it has one, else `nil`. -/
def chooseProbe (container : Container) : Option Probe :=
  match container.ReadinessProbe with
  | some r =>
    match r.Handler.HTTPGet with
    | some _ => some r
    | none => livenessChoice container
  | none => livenessChoice container

/-- The loop of lines 134-147 over the ports of one container: `some r` when the loop
returns `r` from the function, `none` when it runs to its end. -/
def scanPorts (allPorts : List Int) (container : Container) :
    List ContainerPort → Option (Option Probe)
  | [] => none
  | port :: rest =>
    if port.ContainerPort ∈ allPorts then some (chooseProbe container)
    else scanPorts allPorts container rest

/-- The loop of lines 133-148 over the containers of one pod. -/
def scanContainers (allPorts : List Int) : List Container → Option (Option Probe)
  | [] => none
  | container :: rest =>
    match scanPorts allPorts container container.Ports with
    | some r => some r
    | none => scanContainers allPorts rest

/-- The loop of lines 132-149 over the pods. -/
def scanPods (allPorts : List Int) : List Pod → Option (Option Probe)
  | [] => none
  | pod :: rest =>
    match scanContainers allPorts pod.Containers with
    | some r => some r
    | none => scanPods allPorts rest

/-- `getProbeForServiceContainer`. -/
def getProbeForServiceContainer (c : appGwConfigBuilder) (service : Service)
    (backendID : backendIdentifier) : Option Probe :=
  let allPorts := resolveTargetPorts c backendID service.Ports []
  let podList := c.k8sContext.GetPodsByServiceSelector service.Selector
  match scanPods allPorts podList with
  | some r => r
  | none => none

/-! ## `health_probes.go`: `generateHealthProbe` -/

/-- Lines 83-100: the fields of the container probe override those of the working
probe. `len(s) != 0` is `s ≠ ""`. -/
def mergeContainerProbe (probe : ApplicationGatewayProbe) (k8sProbe : Probe)
    (httpGet : HTTPGetAction) : ApplicationGatewayProbe :=
  let probe := if httpGet.Host ≠ "" then { probe with Host := httpGet.Host } else probe
  let probe := if httpGet.Path ≠ "" then { probe with Path := httpGet.Path } else probe
  let probe :=
    if httpGet.Scheme = URISchemeHTTPS then
      { probe with Protocol := ApplicationGatewayProtocol.HTTPS }
    else probe
  let probe :=
    if k8sProbe.PeriodSeconds ≠ 0 then { probe with Interval := k8sProbe.PeriodSeconds }
    else probe
  let probe :=
    if k8sProbe.TimeoutSeconds ≠ 0 then { probe with Timeout := k8sProbe.TimeoutSeconds }
    else probe
  if k8sProbe.FailureThreshold ≠ 0 then
    { probe with UnhealthyThreshold := k8sProbe.FailureThreshold }
  else probe

/-- Lines 70-72: the host of the rule, when there is a rule with a host. -/
def applyRuleHost (probe : ApplicationGatewayProbe) (backendID : backendIdentifier) :
    ApplicationGatewayProbe :=
  match backendID.Rule with
  | some rule => if rule.Host ≠ "" then { probe with Host := rule.Host } else probe
  | none => probe

/-- Lines 74-79: the path-prefix annotation, else the path of the path rule. -/
def applyPath (c : appGwConfigBuilder) (probe : ApplicationGatewayProbe)
    (backendID : backendIdentifier) : ApplicationGatewayProbe :=
  match c.helpers.BackendPathPrefix backendID.Ingress with
  | some pathPrefix => { probe with Path := pathPrefix }
  | none =>
    match backendID.Path with
    | some path => if path.Path ≠ "" then { probe with Path := path.Path } else probe
    | none => probe

/-- `generateHealthProbe`. Line 69 reads `backendID.Path.Backend` without a test of
`backendID.Path`, and lines 83-89 read `Handler.HTTPGet` of the container probe
without a test. -/
def generateHealthProbe (c : appGwConfigBuilder) (backendID : backendIdentifier) :
    Except Fault (Option ApplicationGatewayProbe) :=
  match c.k8sContext.GetService backendID.serviceKey with
  | none => Except.ok none
  | some service =>
    match backendID.Path with
    | none => Except.error Fault.nilDereference
    | some path =>
      let probe := c.helpers.defaultProbe
      let probe :=
        { probe with
          Name := c.helpers.generateProbeName path.Backend.ServiceName
            path.Backend.ServicePort.String backendID.Ingress.Name }
      let probe := applyRuleHost probe backendID
      let probe := applyPath c probe backendID
      match getProbeForServiceContainer c service backendID with
      | none => Except.ok (some probe)
      | some k8sProbe =>
        match k8sProbe.Handler.HTTPGet with
        | none => Except.error Fault.nilDereference
        | some httpGet => Except.ok (some (mergeContainerProbe probe k8sProbe httpGet))

/-! ## `health_probes.go`: `newProbesMap` and `HealthProbesCollection` -/

/-- The name-to-probe collection and the backend-to-probe map. -/
abbrev ProbeMaps : Type :=
  List (String × ApplicationGatewayProbe) × List (backendIdentifier × ApplicationGatewayProbe)

/-- The loop of lines 31-42 over the backend identifiers in visiting order. -/
def newProbesMapLoop (c : appGwConfigBuilder) :
    List backendIdentifier → ProbeMaps → Except Fault ProbeMaps
  | [], maps => Except.ok maps
  | backendID :: rest, (healthProbeCollection, probesMap) =>
    match generateHealthProbe c backendID with
    | Except.error e => Except.error e
    | Except.ok (some probe) =>
      newProbesMapLoop c rest
        (mapSet healthProbeCollection probe.Name probe, mapSet probesMap backendID probe)
    | Except.ok none =>
      newProbesMapLoop c rest
        (healthProbeCollection, mapSet probesMap backendID c.helpers.defaultProbe)

/-- `newProbesMap`; `ro` is the order in which `range` visits the backend identifiers. -/
def newProbesMap (c : appGwConfigBuilder) (ro : RangeOrder backendIdentifier)
    (ingressList : List Ingress) : Except Fault ProbeMaps :=
  let backendIDs := c.helpers.newBackendIds ingressList
  let defaultProbe := c.helpers.defaultProbe
  let healthProbeCollection := mapSet [] defaultProbe.Name defaultProbe
  newProbesMapLoop c (ro.iter backendIDs) (healthProbeCollection, [])

/-- Modelled from the spec: the type `sorter.ByHealthProbeName` is not among the
embedded files; the spec has the committed probes "sorted by name", so its `Less`
compares the names of two probes as strings, that is character by character. -/
def ByHealthProbeName.Less (a b : ApplicationGatewayProbe) : Bool :=
  decide (a.Name.data < b.Name.data)

/-- Go's `sort.Sort` for a given `Less`: the elements in ascending order. `sort.Sort`
does not say where elements that `Less` does not separate end up; insertion sort
keeps them in their given order. -/
def sortSort {α : Type} (less : α → α → Bool) (l : List α) : List α :=
  l.insertionSort (fun a b => less b a = false)

/-- `HealthProbesCollection`: the probes written to `appGwConfig.Probes` and the
returned error (`none` is `nil`). `roIDs` is the visiting order of the backend
identifiers, `roProbes` that of the name-to-probe collection. -/
def HealthProbesCollection (c : appGwConfigBuilder) (roIDs : RangeOrder backendIdentifier)
    (roProbes : RangeOrder (String × ApplicationGatewayProbe))
    (ingressList : List Ingress) :
    Except Fault (List ApplicationGatewayProbe × Option String) :=
  match newProbesMap c roIDs ingressList with
  | Except.error e => Except.error e
  | Except.ok (healthProbeCollection, _) =>
    let probes := (roProbes.iter healthProbeCollection).map Prod.snd
    let probes := sortSort ByHealthProbeName.Less probes
    Except.ok (probes, none)

/-! ## Sample cluster -/

/-- A numeric `IntOrString`. -/
def intPort (n : Int) : IntOrString := ⟨IntstrType.Int, n, ""⟩

/-- A named `IntOrString`. -/
def namedPort (s : String) : IntOrString := ⟨IntstrType.String, 0, s⟩

/-- One part of a probe name: every character behind a dot, then a dash. -/
def probeNamePart (l : List Char) : List Char :=
  match l with
  | [] => ['-']
  | ch :: rest => '.' :: ch :: probeNamePart rest

/-- Modelled from the spec: `generateProbeName` is not among the embedded files; the
spec has the probe name "derived deterministically from (serviceName, servicePort,
ownerRouteName)" by a pure function, with equal names for identical triples and
different names for triples that differ in any of the three. The name is the three
parts one after another, each written so that it cannot run into the next. -/
def generateProbeName (serviceName servicePort ingress : String) : String :=
  String.mk (probeNamePart serviceName.data ++
    (probeNamePart servicePort.data ++ probeNamePart ingress.data))

/-- A sample default probe. -/
def sampleDefaultProbe : ApplicationGatewayProbe :=
  { Name := "defaultprobe", Protocol := ApplicationGatewayProtocol.HTTP,
    Host := "localhost", Path := "/", Interval := 30, Timeout := 30,
    UnhealthyThreshold := 3 }

/-- The identifiers one rule of an ingress contributes: one per path. -/
def backendIdsOfRule (ingress : Ingress) (rule : IngressRule) :
    List backendIdentifier :=
  match rule.HTTP with
  | none => []
  | some paths =>
    paths.map (fun path =>
      { Namespace := ingress.Namespace, Name := path.Backend.ServiceName,
        Ingress := ingress, Rule := some rule, Path := some path,
        Backend := path.Backend })

/-- Modelled from the spec: `newBackendIds` is not among the embedded files; the spec
derives "the set of distinct BackendIdentifiers referenced by all routes (one per path
rule per rule per route)". -/
def newBackendIds (ingressList : List Ingress) : List backendIdentifier :=
  (ingressList.flatMap (fun ingress =>
    ingress.Rules.flatMap (backendIdsOfRule ingress))).foldl setAdd []

/-- Sample helper functions. An ingress with rules listens on port 80, and on port 443
as well when it carries annotations. -/
def sampleHelpers : Helpers :=
  { processIngressRules := fun ingress =>
      (if ingress.Rules = [] then [] else [80]) ++
        (if ingress.Rules = [] ∨ ingress.Annotations = [] then [] else [443])
    defaultFrontendPort := 80
    generateFrontendPortName := fun port => "fp-" ++ toString port
    newBackendIds := newBackendIds
    defaultProbe := sampleDefaultProbe
    generateProbeName := generateProbeName
    BackendPathPrefix := fun ingress => mapGet ingress.Annotations "backend-path-prefix"
    resolvePortName := fun _ _ => [] }

/-- A service with one TCP port 80 that targets container port 8080. -/
def sampleService : Service :=
  { Ports := [{ Name := "http", Protocol := "TCP", Port := 80, TargetPort := intPort 8080 }]
    Selector := [("app", "web")] }

/-- A pod whose container serves port 8080 and has an HTTP-GET readiness probe. -/
def samplePod : Pod :=
  { Name := "web-0"
    Containers :=
      [{ Name := "web", Ports := [{ Name := "http", ContainerPort := 8080 }]
         LivenessProbe := none
         ReadinessProbe := some
           { Handler := ⟨some { Path := "/healthz", Host := "", Scheme := "HTTP" }⟩
             TimeoutSeconds := 0, PeriodSeconds := 15, FailureThreshold := 0 } }] }

/-- A cluster with the service `default/svc1` and its pod. -/
def sampleContext : k8sContext :=
  { GetService := fun key => if key = "default/svc1" then some sampleService else none
    GetPodsByServiceSelector := fun selector =>
      if selector = [("app", "web")] then [samplePod] else [] }

/-- The sample builder. -/
def sampleBuilder : appGwConfigBuilder :=
  { k8sContext := sampleContext, helpers := sampleHelpers }

/-- The backend `svc1:80`. -/
def svc1Backend : IngressBackend := { ServiceName := "svc1", ServicePort := intPort 80 }

/-- The backend `svc2:80`, a service the sample cluster does not have. -/
def svc2Backend : IngressBackend := { ServiceName := "svc2", ServicePort := intPort 80 }

/-- A path rule to `svc1:80`. -/
def svc1Path : HTTPIngressPath := { Path := "/app", Backend := svc1Backend }

/-- A rule for host `a.example.com` with the path to `svc1:80`. -/
def ruleA : IngressRule := { Host := "a.example.com", HTTP := some [svc1Path] }

/-- A rule for host `b.example.com` with the same path to `svc1:80`. -/
def ruleB : IngressRule := { Host := "b.example.com", HTTP := some [svc1Path] }

/-- An ingress that routes two hosts to the same service. -/
def webIngress : Ingress :=
  { Name := "web", Namespace := "default", Annotations := [], Backend := none,
    Rules := [ruleA, ruleB] }

/-- An ingress without rules. -/
def emptyIngress : Ingress :=
  { Name := "empty", Namespace := "default", Annotations := [], Backend := none,
    Rules := [] }

/-- An ingress whose only rule routes to the missing service `svc2`. -/
def lostIngress : Ingress :=
  { Name := "lost", Namespace := "default", Annotations := [], Backend := none,
    Rules := [{ Host := "", HTTP := some [{ Path := "/", Backend := svc2Backend }] }] }

/-- The identifier of `webIngress`, host `a.example.com`, path `/app`. -/
def backendA : backendIdentifier :=
  { Namespace := "default", Name := "svc1", Ingress := webIngress, Rule := some ruleA,
    Path := some svc1Path, Backend := svc1Backend }

/-- The identifier of `webIngress`, host `b.example.com`, path `/app`. -/
def backendB : backendIdentifier :=
  { Namespace := "default", Name := "svc1", Ingress := webIngress, Rule := some ruleB,
    Path := some svc1Path, Backend := svc1Backend }

/-- The identifier of the backend of `lostIngress`. -/
def backendLost : backendIdentifier :=
  { Namespace := "default", Name := "svc2", Ingress := lostIngress,
    Rule := some { Host := "", HTTP := some [{ Path := "/", Backend := svc2Backend }] },
    Path := some { Path := "/", Backend := svc2Backend }, Backend := svc2Backend }

/-- The backend `svc1` with the service port given by the name `80`. -/
def svc1NamedBackend : IngressBackend :=
  { ServiceName := "svc1", ServicePort := namedPort "80" }

/-- The identifier of `webIngress`, host `a.example.com`, for the backend `svc1` with
the named service port `80`. -/
def backendNamed : backendIdentifier :=
  { Namespace := "default", Name := "svc1", Ingress := webIngress, Rule := some ruleA,
    Path := some { Path := "/app", Backend := svc1NamedBackend },
    Backend := svc1NamedBackend }

/-- An ingress without rules whose default backend is `svc1:80`. -/
def defaultBackendIngress : Ingress :=
  { Name := "fallback", Namespace := "default", Annotations := [],
    Backend := some svc1Backend, Rules := [] }

/-- The identifier of the default backend of `defaultBackendIngress`: it belongs to no
rule and no path. -/
def backendDefault : backendIdentifier :=
  { Namespace := "default", Name := "svc1", Ingress := defaultBackendIngress,
    Rule := none, Path := none, Backend := svc1Backend }

/-- An ingress with one rule and an annotation: it listens on ports 80 and 443. -/
def tlsIngress : Ingress :=
  { Name := "tls", Namespace := "default", Annotations := [("ssl-redirect", "true")],
    Backend := none, Rules := [ruleA] }

/-- A pod of an older revision: its container serves port 8080 and has a readiness
probe without an HTTP-GET handler. -/
def oldPod : Pod :=
  { Name := "web-old"
    Containers :=
      [{ Name := "web", Ports := [{ Name := "http", ContainerPort := 8080 }]
         LivenessProbe := none
         ReadinessProbe := some
           { Handler := ⟨none⟩, TimeoutSeconds := 1, PeriodSeconds := 5,
             FailureThreshold := 3 } }] }

/-- A service with one TCP port 443 that targets container port 8443. -/
def secureService : Service :=
  { Ports := [{ Name := "https", Protocol := "TCP", Port := 443, TargetPort := intPort 8443 }]
    Selector := [("app", "secure")] }

/-- A pod whose container serves port 8443 and has both probes with an HTTP-GET
handler, the readiness probe over HTTPS. -/
def securePod : Pod :=
  { Name := "secure-0"
    Containers :=
      [{ Name := "secure", Ports := [{ Name := "https", ContainerPort := 8443 }]
         LivenessProbe := some
           { Handler := ⟨some { Path := "/live", Host := "", Scheme := "HTTP" }⟩
             TimeoutSeconds := 0, PeriodSeconds := 0, FailureThreshold := 0 }
         ReadinessProbe := some
           { Handler := ⟨some { Path := "/ready", Host := "", Scheme := "HTTPS" }⟩
             TimeoutSeconds := 5, PeriodSeconds := 10, FailureThreshold := 0 } }] }

/-- The zero value of `IntOrString`, type `Int` and value 0: what a service port holds
when no target port is given. -/
def zeroTargetPort : IntOrString := ⟨IntstrType.Int, 0, ""⟩

/-- A service with one TCP port 80 and no target port. -/
def plainService : Service :=
  { Ports := [{ Name := "http", Protocol := "TCP", Port := 80, TargetPort := zeroTargetPort }]
    Selector := [("app", "plain")] }

/-- A pod whose container serves port 80 and has an HTTP-GET readiness probe. -/
def plainPod : Pod :=
  { Name := "plain-0"
    Containers :=
      [{ Name := "plain", Ports := [{ Name := "http", ContainerPort := 80 }]
         LivenessProbe := none
         ReadinessProbe := some
           { Handler := ⟨some { Path := "/ok", Host := "", Scheme := "HTTP" }⟩
             TimeoutSeconds := 0, PeriodSeconds := 0, FailureThreshold := 0 } }] }

/-- A service with two TCP ports: 80 targets 8080, and 8080 targets 80. -/
def twoPortService : Service :=
  { Ports :=
      [{ Name := "http", Protocol := "TCP", Port := 80, TargetPort := intPort 8080 },
       { Name := "admin", Protocol := "TCP", Port := 8080, TargetPort := intPort 80 }]
    Selector := [("app", "web")] }

/-- A second cluster: the service `default/svc1` is served by an old pod and the sample
pod, and there are the services `default/secure` and `default/plain`. -/
def secondContext : k8sContext :=
  { GetService := fun key =>
      if key = "default/svc1" then some sampleService
      else if key = "default/secure" then some secureService
      else if key = "default/plain" then some plainService
      else none
    GetPodsByServiceSelector := fun selector =>
      if selector = [("app", "web")] then [oldPod, samplePod]
      else if selector = [("app", "secure")] then [securePod]
      else if selector = [("app", "plain")] then [plainPod]
      else [] }

/-- The builder of the second cluster. -/
def secondBuilder : appGwConfigBuilder :=
  { k8sContext := secondContext, helpers := sampleHelpers }

/-- The backend `secure:443`. -/
def secureBackend : IngressBackend :=
  { ServiceName := "secure", ServicePort := intPort 443 }

/-- The identifier of `webIngress`, host `a.example.com`, for the backend `secure:443`. -/
def backendSecure : backendIdentifier :=
  { Namespace := "default", Name := "secure", Ingress := webIngress, Rule := some ruleA,
    Path := some { Path := "/secure", Backend := secureBackend },
    Backend := secureBackend }

/-- The backend `plain:80`. -/
def plainBackend : IngressBackend :=
  { ServiceName := "plain", ServicePort := intPort 80 }

/-- The identifier of `webIngress`, host `a.example.com`, for the backend `plain:80`. -/
def backendPlain : backendIdentifier :=
  { Namespace := "default", Name := "plain", Ingress := webIngress, Rule := some ruleA,
    Path := some { Path := "/plain", Backend := plainBackend },
    Backend := plainBackend }

/-- The backend `svc1:9999`, a port the service `svc1` does not have. -/
def svc1OtherBackend : IngressBackend :=
  { ServiceName := "svc1", ServicePort := intPort 9999 }

/-- The identifier of `webIngress`, host `a.example.com`, for the backend `svc1:9999`. -/
def backendOther : backendIdentifier :=
  { Namespace := "default", Name := "svc1", Ingress := webIngress, Rule := some ruleA,
    Path := some { Path := "/other", Backend := svc1OtherBackend },
    Backend := svc1OtherBackend }

/-! ## Facts about sets and maps -/

theorem mem_setAdd {K : Type} [DecidableEq K] (s : List K) (k x : K) :
    x ∈ setAdd s k ↔ x ∈ s ∨ x = k := by
  unfold setAdd
  split
  · constructor
    · intro h; exact Or.inl h
    · rintro (h | h)
      · exact h
      · subst h; assumption
  · simp

theorem nodup_setAdd {K : Type} [DecidableEq K] (s : List K) (k : K) (h : s.Nodup) :
    (setAdd s k).Nodup := by
  unfold setAdd
  split
  · exact h
  · rename_i hk
    rw [List.nodup_append]
    refine ⟨h, List.nodup_singleton k, ?_⟩
    intro a ha hb
    simp at hb
    subst hb
    exact hk ha

theorem mem_foldl_setAdd {K : Type} [DecidableEq K] (xs s : List K) (x : K) :
    x ∈ xs.foldl setAdd s ↔ x ∈ s ∨ x ∈ xs := by
  induction xs generalizing s with
  | nil => simp
  | cons k ks ih =>
    rw [List.foldl_cons, ih, mem_setAdd]
    simp only [List.mem_cons]
    tauto

theorem mem_addPorts (fePorts : List Int) (allPorts : List Int) (x : Int) :
    x ∈ addPorts allPorts fePorts ↔ x ∈ allPorts ∨ x ∈ fePorts :=
  mem_foldl_setAdd fePorts allPorts x

theorem nodup_addPorts (fePorts : List Int) (allPorts : List Int) (h : allPorts.Nodup) :
    (addPorts allPorts fePorts).Nodup := by
  induction fePorts generalizing allPorts with
  | nil => simpa [addPorts] using h
  | cons p ps ih =>
    have h2 := ih (setAdd allPorts p) (nodup_setAdd allPorts p h)
    simpa [addPorts] using h2

theorem mem_collectPorts (builder : appGwConfigBuilder) (roIngress : RangeOrder Int)
    (l : List Ingress) (acc : List Int) (x : Int) :
    x ∈ collectPorts builder roIngress l acc ↔
      x ∈ acc ∨ ∃ ingress ∈ l, x ∈ builder.helpers.processIngressRules ingress := by
  induction l generalizing acc with
  | nil => simp [collectPorts]
  | cons i rest ih =>
    rw [collectPorts, ih, mem_addPorts, (roIngress.perm _).mem_iff]
    simp only [List.mem_cons, exists_eq_or_imp]
    tauto

theorem nodup_collectPorts (builder : appGwConfigBuilder) (roIngress : RangeOrder Int)
    (l : List Ingress) (acc : List Int) (h : acc.Nodup) :
    (collectPorts builder roIngress l acc).Nodup := by
  induction l generalizing acc with
  | nil => simpa [collectPorts] using h
  | cons i rest ih =>
    rw [collectPorts]
    exact ih _ (nodup_addPorts _ _ h)

theorem map_Port_newFrontendPort (builder : appGwConfigBuilder) (ports : List Int) :
    (ports.map (newFrontendPort builder)).map (fun fp => fp.Port) = ports := by
  induction ports with
  | nil => rfl
  | cons p ps ih => simpa [newFrontendPort] using ih

theorem mapGet_mapSet_self {K V : Type} [DecidableEq K] (m : List (K × V)) (k : K) (v : V) :
    mapGet (mapSet m k v) k = some v := by
  induction m with
  | nil => simp [mapSet, mapGet]
  | cons e rest ih =>
    obtain ⟨k', v'⟩ := e
    by_cases h : k' = k
    · simp [mapSet, mapGet, h]
    · simp [mapSet, mapGet, h, ih]

theorem mapGet_mapSet_ne {K V : Type} [DecidableEq K] (m : List (K × V)) (k x : K) (v : V)
    (hx : x ≠ k) : mapGet (mapSet m k v) x = mapGet m x := by
  induction m with
  | nil =>
    have hk : ¬ k = x := fun h => hx h.symm
    simp [mapSet, mapGet, hk]
  | cons e rest ih =>
    obtain ⟨k', v'⟩ := e
    by_cases h : k' = k
    · have hk : ¬ k = x := fun h => hx h.symm
      have hk2 : ¬ k' = x := by rw [h]; exact hk
      simp [mapSet, mapGet, h, hk]
    · by_cases h2 : k' = x
      · subst h2
        simp [mapSet, mapGet, h]
      · simp [mapSet, mapGet, h, h2, ih]

theorem mem_mapSet {K V : Type} [DecidableEq K] (m : List (K × V)) (k : K) (v : V)
    (e : K × V) (he : e ∈ mapSet m k v) : e = (k, v) ∨ e ∈ m := by
  induction m with
  | nil => simpa [mapSet] using he
  | cons e' rest ih =>
    obtain ⟨k', v'⟩ := e'
    by_cases h : k' = k
    · simp only [mapSet, h, if_true, List.mem_cons] at he
      rcases he with he | he
      · exact Or.inl he
      · exact Or.inr (List.mem_cons_of_mem _ he)
    · simp only [mapSet, h, if_false, List.mem_cons] at he
      rcases he with he | he
      · exact Or.inr (by rw [he]; exact List.mem_cons_self _ _)
      · rcases ih he with h1 | h1
        · exact Or.inl h1
        · exact Or.inr (List.mem_cons_of_mem _ h1)

theorem mem_mapKeys_mapSet {K V : Type} [DecidableEq K] (m : List (K × V)) (k x : K) (v : V) :
    x ∈ mapKeys (mapSet m k v) ↔ x ∈ mapKeys m ∨ x = k := by
  induction m with
  | nil => simp [mapSet, mapKeys]
  | cons e rest ih =>
    obtain ⟨k', v'⟩ := e
    by_cases h : k' = k
    · subst h
      simp only [mapSet, if_true, mapKeys, List.map_cons, List.mem_cons]
      tauto
    · simp only [mapKeys] at ih
      simp only [mapSet, h, if_false, mapKeys, List.map_cons, List.mem_cons, ih]
      tauto

theorem nodup_mapKeys_mapSet {K V : Type} [DecidableEq K] (m : List (K × V)) (k : K) (v : V)
    (h : (mapKeys m).Nodup) : (mapKeys (mapSet m k v)).Nodup := by
  induction m with
  | nil => simp [mapSet, mapKeys]
  | cons e rest ih =>
    obtain ⟨k', v'⟩ := e
    simp only [mapKeys, List.map_cons, List.nodup_cons] at h
    by_cases hk : k' = k
    · subst hk
      simpa [mapSet, mapKeys] using h
    · have h3 := ih h.2
      have h4 := mem_mapKeys_mapSet rest k k' v
      simp only [mapKeys] at h3 h4
      simp only [mapSet, hk, if_false, mapKeys, List.map_cons, List.nodup_cons]
      refine ⟨?_, h3⟩
      rw [h4]
      rintro (h5 | h5)
      · exact h.1 h5
      · exact hk h5

theorem mem_mapKeys_iff {K V : Type} [DecidableEq K] (m : List (K × V)) (k : K) :
    k ∈ mapKeys m ↔ ∃ v, mapGet m k = some v := by
  induction m with
  | nil => simp [mapKeys, mapGet]
  | cons e rest ih =>
    obtain ⟨k', v'⟩ := e
    simp only [mapKeys] at ih
    by_cases h : k' = k
    · simp [mapKeys, mapGet, h]
    · have h2 : ¬ k = k' := fun h3 => h h3.symm
      simp [mapKeys, mapGet, h, h2, ih]

theorem mapGet_eq_some_iff {K V : Type} [DecidableEq K] (m : List (K × V)) (k : K) (v : V)
    (hnd : (mapKeys m).Nodup) : mapGet m k = some v ↔ (k, v) ∈ m := by
  induction m with
  | nil => simp [mapGet]
  | cons e rest ih =>
    obtain ⟨k', v'⟩ := e
    simp only [mapKeys, List.map_cons, List.nodup_cons] at hnd
    have ih2 := ih hnd.2
    by_cases h : k' = k
    · subst h
      simp only [mapGet, if_true, List.mem_cons, Prod.mk.injEq, true_and, Option.some.injEq]
      constructor
      · intro h1; exact Or.inl h1.symm
      · rintro (h1 | h1)
        · exact h1.symm
        · exact absurd (List.mem_map_of_mem Prod.fst h1) hnd.1
    · have h2 : ¬ k = k' := fun h3 => h h3.symm
      simp [mapGet, h, h2, ih2]

/-! ## Facts about `getProbeForServiceContainer` and `generateHealthProbe` -/

theorem livenessChoice_HTTPGet (container : Container) (p : Probe)
    (h : livenessChoice container = some p) : p.Handler.HTTPGet ≠ none := by
  unfold livenessChoice at h
  split at h
  · rename_i l hl
    split at h
    · rename_i g hg
      cases h
      rw [hg]
      simp
    · cases h
  · cases h

theorem chooseProbe_HTTPGet (container : Container) (p : Probe)
    (h : chooseProbe container = some p) : p.Handler.HTTPGet ≠ none := by
  unfold chooseProbe at h
  split at h
  · rename_i r hr
    split at h
    · rename_i g hg
      cases h
      rw [hg]
      simp
    · exact livenessChoice_HTTPGet container p h
  · exact livenessChoice_HTTPGet container p h

theorem scanPorts_HTTPGet (allPorts : List Int) (container : Container)
    (ports : List ContainerPort) (p : Probe)
    (h : scanPorts allPorts container ports = some (some p)) :
    p.Handler.HTTPGet ≠ none := by
  induction ports with
  | nil => simp [scanPorts] at h
  | cons port rest ih =>
    unfold scanPorts at h
    split at h
    · simp only [Option.some.injEq] at h
      exact chooseProbe_HTTPGet container p h
    · exact ih h

theorem scanContainers_HTTPGet (allPorts : List Int) (containers : List Container)
    (p : Probe) (h : scanContainers allPorts containers = some (some p)) :
    p.Handler.HTTPGet ≠ none := by
  induction containers with
  | nil => simp [scanContainers] at h
  | cons container rest ih =>
    unfold scanContainers at h
    split at h
    · rename_i r hr
      cases h
      exact scanPorts_HTTPGet allPorts container container.Ports p hr
    · exact ih h

theorem scanPods_HTTPGet (allPorts : List Int) (pods : List Pod)
    (p : Probe) (h : scanPods allPorts pods = some (some p)) :
    p.Handler.HTTPGet ≠ none := by
  induction pods with
  | nil => simp [scanPods] at h
  | cons pod rest ih =>
    unfold scanPods at h
    split at h
    · rename_i r hr
      cases h
      exact scanContainers_HTTPGet allPorts pod.Containers p hr
    · exact ih h

theorem getProbeForServiceContainer_HTTPGet (c : appGwConfigBuilder) (service : Service)
    (backendID : backendIdentifier) (p : Probe)
    (h : getProbeForServiceContainer c service backendID = some p) :
    p.Handler.HTTPGet ≠ none := by
  unfold getProbeForServiceContainer at h
  simp only at h
  split at h
  · rename_i r hr
    subst h
    exact scanPods_HTTPGet _ _ p hr
  · cases h

theorem generateHealthProbe_no_service (c : appGwConfigBuilder)
    (backendID : backendIdentifier)
    (h : c.k8sContext.GetService backendID.serviceKey = none) :
    generateHealthProbe c backendID = Except.ok none := by
  simp [generateHealthProbe, h]

theorem generateHealthProbe_no_path (c : appGwConfigBuilder)
    (backendID : backendIdentifier) (service : Service)
    (h : c.k8sContext.GetService backendID.serviceKey = some service)
    (hp : backendID.Path = none) :
    generateHealthProbe c backendID = Except.error Fault.nilDereference := by
  simp [generateHealthProbe, h, hp]

/-- The working probe of `generateHealthProbe` before the container probe is merged
in: the default probe with the generated name, the rule's host and the path. -/
theorem generateHealthProbe_path (c : appGwConfigBuilder)
    (backendID : backendIdentifier) (service : Service) (path : HTTPIngressPath)
    (h : c.k8sContext.GetService backendID.serviceKey = some service)
    (hp : backendID.Path = some path) :
    (getProbeForServiceContainer c service backendID = none ∧
      generateHealthProbe c backendID = Except.ok (some
        (applyPath c (applyRuleHost { c.helpers.defaultProbe with
          Name := c.helpers.generateProbeName path.Backend.ServiceName
            path.Backend.ServicePort.String backendID.Ingress.Name } backendID)
          backendID))) ∨
    (∃ k8sProbe httpGet, getProbeForServiceContainer c service backendID = some k8sProbe ∧
      k8sProbe.Handler.HTTPGet = some httpGet ∧
      generateHealthProbe c backendID = Except.ok (some
        (mergeContainerProbe (applyPath c (applyRuleHost { c.helpers.defaultProbe with
          Name := c.helpers.generateProbeName path.Backend.ServiceName
            path.Backend.ServicePort.String backendID.Ingress.Name } backendID)
          backendID) k8sProbe httpGet))) := by
  cases hk : getProbeForServiceContainer c service backendID with
  | none =>
    left
    simp [generateHealthProbe, h, hp, hk]
  | some k8sProbe =>
    right
    have hg := getProbeForServiceContainer_HTTPGet c service backendID k8sProbe hk
    cases hget : k8sProbe.Handler.HTTPGet with
    | none => exact absurd hget hg
    | some httpGet =>
      refine ⟨k8sProbe, httpGet, rfl, hget, ?_⟩
      simp [generateHealthProbe, h, hp, hk, hget]

theorem mergeContainerProbe_Name (probe : ApplicationGatewayProbe) (k8sProbe : Probe)
    (httpGet : HTTPGetAction) :
    (mergeContainerProbe probe k8sProbe httpGet).Name = probe.Name := by
  unfold mergeContainerProbe
  simp only
  repeat' split
  all_goals rfl

theorem applyRuleHost_Name (probe : ApplicationGatewayProbe)
    (backendID : backendIdentifier) : (applyRuleHost probe backendID).Name = probe.Name := by
  unfold applyRuleHost
  repeat' split
  all_goals rfl

theorem applyPath_Name (c : appGwConfigBuilder) (probe : ApplicationGatewayProbe)
    (backendID : backendIdentifier) : (applyPath c probe backendID).Name = probe.Name := by
  unfold applyPath
  repeat' split
  all_goals rfl

/-- What `generateHealthProbe` returns decides what happened: a probe comes from an
existing service and a present path rule, and carries the generated name. -/
theorem generateHealthProbe_some (c : appGwConfigBuilder) (backendID : backendIdentifier)
    (p : ApplicationGatewayProbe)
    (h : generateHealthProbe c backendID = Except.ok (some p)) :
    ∃ service path, c.k8sContext.GetService backendID.serviceKey = some service ∧
      backendID.Path = some path ∧
      p.Name = c.helpers.generateProbeName path.Backend.ServiceName
        path.Backend.ServicePort.String backendID.Ingress.Name := by
  cases hs : c.k8sContext.GetService backendID.serviceKey with
  | none =>
    rw [generateHealthProbe_no_service c backendID hs] at h
    cases h
  | some service =>
    cases hp : backendID.Path with
    | none =>
      rw [generateHealthProbe_no_path c backendID service hs hp] at h
      cases h
    | some path =>
      refine ⟨service, path, rfl, rfl, ?_⟩
      rcases generateHealthProbe_path c backendID service path hs hp with
        ⟨_, h2⟩ | ⟨k8sProbe, httpGet, _, _, h2⟩
      · rw [h2] at h
        cases h
        rw [applyPath_Name, applyRuleHost_Name]
      · rw [h2] at h
        cases h
        rw [mergeContainerProbe_Name, applyPath_Name, applyRuleHost_Name]

/-- The only fault of `generateHealthProbe`: an existing service with an absent path. -/
theorem generateHealthProbe_error (c : appGwConfigBuilder) (backendID : backendIdentifier)
    (e : Fault) :
    generateHealthProbe c backendID = Except.error e ↔
      c.k8sContext.GetService backendID.serviceKey ≠ none ∧ backendID.Path = none := by
  cases hs : c.k8sContext.GetService backendID.serviceKey with
  | none =>
    rw [generateHealthProbe_no_service c backendID hs]
    simp
  | some service =>
    cases hp : backendID.Path with
    | none =>
      rw [generateHealthProbe_no_path c backendID service hs hp]
      cases e
      simp
    | some path =>
      rcases generateHealthProbe_path c backendID service path hs hp with
        ⟨_, h2⟩ | ⟨k8sProbe, httpGet, _, _, h2⟩
      · rw [h2]; simp
      · rw [h2]; simp

/-- A probe is returned for an existing service whenever the path rule is present. -/
theorem generateHealthProbe_returns (c : appGwConfigBuilder) (b : backendIdentifier)
    (service : Service) (hs : c.k8sContext.GetService b.serviceKey = some service)
    (hp : b.Path ≠ none) : ∃ p, generateHealthProbe c b = Except.ok (some p) := by
  cases hpath : b.Path with
  | none => exact absurd hpath hp
  | some path =>
    rcases generateHealthProbe_path c b service path hs hpath with
      ⟨_, h⟩ | ⟨_, _, _, _, h⟩
    · exact ⟨_, h⟩
    · exact ⟨_, h⟩

/-! ## Facts about the loop of `newProbesMap` -/

theorem newProbesMapLoop_cons_some (c : appGwConfigBuilder) (b : backendIdentifier)
    (rest : List backendIdentifier) (hpc : List (String × ApplicationGatewayProbe))
    (pm : List (backendIdentifier × ApplicationGatewayProbe)) (p : ApplicationGatewayProbe)
    (hg : generateHealthProbe c b = Except.ok (some p)) :
    newProbesMapLoop c (b :: rest) (hpc, pm) =
      newProbesMapLoop c rest (mapSet hpc p.Name p, mapSet pm b p) := by
  simp only [newProbesMapLoop, hg]

theorem newProbesMapLoop_cons_none (c : appGwConfigBuilder) (b : backendIdentifier)
    (rest : List backendIdentifier) (hpc : List (String × ApplicationGatewayProbe))
    (pm : List (backendIdentifier × ApplicationGatewayProbe))
    (hg : generateHealthProbe c b = Except.ok none) :
    newProbesMapLoop c (b :: rest) (hpc, pm) =
      newProbesMapLoop c rest (hpc, mapSet pm b c.helpers.defaultProbe) := by
  simp only [newProbesMapLoop, hg]

theorem newProbesMapLoop_cons_error (c : appGwConfigBuilder) (b : backendIdentifier)
    (rest : List backendIdentifier) (maps : ProbeMaps) (e : Fault)
    (hg : generateHealthProbe c b = Except.error e) :
    newProbesMapLoop c (b :: rest) maps = Except.error e := by
  obtain ⟨hpc, pm⟩ := maps
  simp only [newProbesMapLoop, hg]

/-- The loop completes when no visited identifier has an existing service and an
absent path. -/
theorem newProbesMapLoop_ok (c : appGwConfigBuilder) (ids : List backendIdentifier)
    (maps : ProbeMaps)
    (h : ∀ b ∈ ids, c.k8sContext.GetService b.serviceKey ≠ none → b.Path ≠ none) :
    ∃ maps', newProbesMapLoop c ids maps = Except.ok maps' := by
  induction ids generalizing maps with
  | nil => exact ⟨maps, by simp [newProbesMapLoop]⟩
  | cons b rest ih =>
    obtain ⟨hpc, pm⟩ := maps
    have hrest : ∀ b' ∈ rest,
        c.k8sContext.GetService b'.serviceKey ≠ none → b'.Path ≠ none :=
      fun b' hb' => h b' (List.mem_cons_of_mem _ hb')
    cases hg : generateHealthProbe c b with
    | error e =>
      have h2 := (generateHealthProbe_error c b e).mp hg
      exact absurd h2.2 (h b (List.mem_cons_self _ _) h2.1)
    | ok r =>
      cases r with
      | none =>
        rw [newProbesMapLoop_cons_none c b rest hpc pm hg]
        exact ih _ hrest
      | some p =>
        rw [newProbesMapLoop_cons_some c b rest hpc pm p hg]
        exact ih _ hrest

/-- The loop faults when a visited identifier has an existing service and an absent
path. -/
theorem newProbesMapLoop_fault (c : appGwConfigBuilder) (ids : List backendIdentifier)
    (maps : ProbeMaps)
    (h : ∃ b ∈ ids, c.k8sContext.GetService b.serviceKey ≠ none ∧ b.Path = none) :
    newProbesMapLoop c ids maps = Except.error Fault.nilDereference := by
  induction ids generalizing maps with
  | nil =>
    obtain ⟨b, hb, _⟩ := h
    simp at hb
  | cons b rest ih =>
    obtain ⟨hpc, pm⟩ := maps
    cases hg : generateHealthProbe c b with
    | error e =>
      cases e
      exact newProbesMapLoop_cons_error c b rest _ _ hg
    | ok r =>
      have hnot : ¬ (c.k8sContext.GetService b.serviceKey ≠ none ∧ b.Path = none) := by
        intro h2
        have h3 := (generateHealthProbe_error c b Fault.nilDereference).mpr h2
        rw [hg] at h3
        cases h3
      have hrest : ∃ b' ∈ rest,
          c.k8sContext.GetService b'.serviceKey ≠ none ∧ b'.Path = none := by
        obtain ⟨b', hb', h2⟩ := h
        rcases List.mem_cons.mp hb' with h3 | h3
        · subst h3
          exact absurd h2 hnot
        · exact ⟨b', h3, h2⟩
      cases r with
      | none =>
        rw [newProbesMapLoop_cons_none c b rest hpc pm hg]
        exact ih _ hrest
      | some p =>
        rw [newProbesMapLoop_cons_some c b rest hpc pm p hg]
        exact ih _ hrest

/-- A property of the two maps that every step of the loop keeps holds at its end. -/
theorem newProbesMapLoop_invariant (c : appGwConfigBuilder) (Inv : ProbeMaps → Prop)
    (ids : List backendIdentifier) (maps maps' : ProbeMaps)
    (hsome : ∀ b ∈ ids, ∀ p hpc pm, generateHealthProbe c b = Except.ok (some p) →
      Inv (hpc, pm) → Inv (mapSet hpc p.Name p, mapSet pm b p))
    (hnone : ∀ b ∈ ids, ∀ hpc pm, generateHealthProbe c b = Except.ok none →
      Inv (hpc, pm) → Inv (hpc, mapSet pm b c.helpers.defaultProbe))
    (h0 : Inv maps) (h : newProbesMapLoop c ids maps = Except.ok maps') : Inv maps' := by
  induction ids generalizing maps with
  | nil =>
    simp only [newProbesMapLoop, Except.ok.injEq] at h
    rw [← h]
    exact h0
  | cons b rest ih =>
    obtain ⟨hpc, pm⟩ := maps
    have hsome2 : ∀ b' ∈ rest, ∀ p hpc pm, generateHealthProbe c b' = Except.ok (some p) →
        Inv (hpc, pm) → Inv (mapSet hpc p.Name p, mapSet pm b' p) :=
      fun b' hb' => hsome b' (List.mem_cons_of_mem _ hb')
    have hnone2 : ∀ b' ∈ rest, ∀ hpc pm, generateHealthProbe c b' = Except.ok none →
        Inv (hpc, pm) → Inv (hpc, mapSet pm b' c.helpers.defaultProbe) :=
      fun b' hb' => hnone b' (List.mem_cons_of_mem _ hb')
    cases hg : generateHealthProbe c b with
    | error e =>
      rw [newProbesMapLoop_cons_error c b rest _ e hg] at h
      cases h
    | ok r =>
      cases r with
      | none =>
        rw [newProbesMapLoop_cons_none c b rest hpc pm hg] at h
        exact ih _ hsome2 hnone2 (hnone b (List.mem_cons_self _ _) hpc pm hg h0) h
      | some p =>
        rw [newProbesMapLoop_cons_some c b rest hpc pm p hg] at h
        exact ih _ hsome2 hnone2 (hsome b (List.mem_cons_self _ _) p hpc pm hg h0) h

/-- The probe the finished loop stores for an identifier: the generated probe or the
default probe for a visited identifier, the earlier entry for any other. -/
theorem newProbesMapLoop_probesMap (c : appGwConfigBuilder) (ids : List backendIdentifier)
    (maps maps' : ProbeMaps) (h : newProbesMapLoop c ids maps = Except.ok maps')
    (b : backendIdentifier) :
    (b ∉ ids → mapGet maps'.2 b = mapGet maps.2 b) ∧
    (b ∈ ids → ∀ p, generateHealthProbe c b = Except.ok (some p) →
      mapGet maps'.2 b = some p) ∧
    (b ∈ ids → generateHealthProbe c b = Except.ok none →
      mapGet maps'.2 b = some c.helpers.defaultProbe) := by
  induction ids generalizing maps with
  | nil =>
    simp only [newProbesMapLoop, Except.ok.injEq] at h
    subst h
    simp
  | cons x rest ih =>
    obtain ⟨hpc, pm⟩ := maps
    cases hg : generateHealthProbe c x with
    | error e =>
      rw [newProbesMapLoop_cons_error c x rest _ e hg] at h
      cases h
    | ok r =>
      cases r with
      | none =>
        rw [newProbesMapLoop_cons_none c x rest hpc pm hg] at h
        obtain ⟨h1, h2, h3⟩ := ih _ h
        refine ⟨?_, ?_, ?_⟩
        · intro hb
          have hbx : b ≠ x := fun e => hb (by rw [e]; exact List.mem_cons_self _ _)
          have hbr : b ∉ rest := fun e => hb (List.mem_cons_of_mem _ e)
          rw [h1 hbr]
          exact mapGet_mapSet_ne pm x b _ hbx
        · intro hb p hp
          by_cases hbr : b ∈ rest
          · exact h2 hbr p hp
          · have hbx : b = x := by
              rcases List.mem_cons.mp hb with e | e
              · exact e
              · exact absurd e hbr
            subst hbx
            rw [hg] at hp
            cases hp
        · intro hb hn
          by_cases hbr : b ∈ rest
          · exact h3 hbr hn
          · have hbx : b = x := by
              rcases List.mem_cons.mp hb with e | e
              · exact e
              · exact absurd e hbr
            subst hbx
            rw [h1 hbr]
            exact mapGet_mapSet_self pm b _
      | some q =>
        rw [newProbesMapLoop_cons_some c x rest hpc pm q hg] at h
        obtain ⟨h1, h2, h3⟩ := ih _ h
        refine ⟨?_, ?_, ?_⟩
        · intro hb
          have hbx : b ≠ x := fun e => hb (by rw [e]; exact List.mem_cons_self _ _)
          have hbr : b ∉ rest := fun e => hb (List.mem_cons_of_mem _ e)
          rw [h1 hbr]
          exact mapGet_mapSet_ne pm x b _ hbx
        · intro hb p hp
          by_cases hbr : b ∈ rest
          · exact h2 hbr p hp
          · have hbx : b = x := by
              rcases List.mem_cons.mp hb with e | e
              · exact e
              · exact absurd e hbr
            subst hbx
            rw [hg] at hp
            cases hp
            rw [h1 hbr]
            exact mapGet_mapSet_self pm b _
        · intro hb hn
          by_cases hbr : b ∈ rest
          · exact h3 hbr hn
          · have hbx : b = x := by
              rcases List.mem_cons.mp hb with e | e
              · exact e
              · exact absurd e hbr
            subst hbx
            rw [hg] at hn
            cases hn

/-- The names under which the finished loop holds probes: the earlier names and the
names of the probes generated for the visited identifiers. -/
theorem newProbesMapLoop_collection_keys (c : appGwConfigBuilder)
    (ids : List backendIdentifier) (maps maps' : ProbeMaps)
    (h : newProbesMapLoop c ids maps = Except.ok maps') (n : String) :
    n ∈ mapKeys maps'.1 ↔
      n ∈ mapKeys maps.1 ∨
        ∃ b ∈ ids, ∃ p, generateHealthProbe c b = Except.ok (some p) ∧ p.Name = n := by
  induction ids generalizing maps with
  | nil =>
    simp only [newProbesMapLoop, Except.ok.injEq] at h
    subst h
    simp
  | cons x rest ih =>
    obtain ⟨hpc, pm⟩ := maps
    cases hg : generateHealthProbe c x with
    | error e =>
      rw [newProbesMapLoop_cons_error c x rest _ e hg] at h
      cases h
    | ok r =>
      cases r with
      | none =>
        rw [newProbesMapLoop_cons_none c x rest hpc pm hg] at h
        rw [ih _ h]
        simp only [List.mem_cons, exists_eq_or_imp, hg]
        simp
      | some q =>
        rw [newProbesMapLoop_cons_some c x rest hpc pm q hg] at h
        rw [ih _ h]
        simp only [List.mem_cons, exists_eq_or_imp, hg, mem_mapKeys_mapSet]
        simp only [Except.ok.injEq, Option.some.injEq]
        constructor
        · rintro ((h1 | h1) | h1)
          · exact Or.inl h1
          · exact Or.inr (Or.inl ⟨q, rfl, h1.symm⟩)
          · exact Or.inr (Or.inr h1)
        · rintro (h1 | ⟨p, hqp, h1⟩ | h1)
          · exact Or.inl (Or.inl h1)
          · subst hqp
            exact Or.inl (Or.inr h1.symm)
          · exact Or.inr h1

/-- A finished loop met no fault. -/
theorem newProbesMapLoop_no_fault (c : appGwConfigBuilder) (ids : List backendIdentifier)
    (maps maps' : ProbeMaps) (h : newProbesMapLoop c ids maps = Except.ok maps')
    (b : backendIdentifier) (hb : b ∈ ids) :
    generateHealthProbe c b = Except.ok none ∨
      ∃ p, generateHealthProbe c b = Except.ok (some p) := by
  cases hg : generateHealthProbe c b with
  | error e =>
    have h2 := (generateHealthProbe_error c b e).mp hg
    rw [newProbesMapLoop_fault c ids maps ⟨b, hb, h2⟩] at h
    cases h
  | ok r =>
    cases r with
    | none => exact Or.inl rfl
    | some p => exact Or.inr ⟨p, rfl⟩

/-- Every identifier the spec's `newBackendIds` derives belongs to a path rule. -/
theorem newBackendIds_Path (ingressList : List Ingress) (b : backendIdentifier)
    (hb : b ∈ newBackendIds ingressList) : b.Path ≠ none := by
  unfold newBackendIds at hb
  rw [mem_foldl_setAdd] at hb
  rcases hb with hb | hb
  · simp at hb
  · simp only [List.mem_flatMap] at hb
    obtain ⟨ingress, _, rule, _, hb⟩ := hb
    unfold backendIdsOfRule at hb
    split at hb
    · simp at hb
    · simp only [List.mem_map] at hb
      obtain ⟨path, _, hb⟩ := hb
      rw [← hb]
      simp

/-- `newProbesMap` returns when no backend identifier of the list has an existing
service and an absent path. -/
theorem newProbesMap_ok (c : appGwConfigBuilder) (ro : RangeOrder backendIdentifier)
    (ingressList : List Ingress)
    (h : ∀ b ∈ c.helpers.newBackendIds ingressList,
      c.k8sContext.GetService b.serviceKey ≠ none → b.Path ≠ none) :
    ∃ maps, newProbesMap c ro ingressList = Except.ok maps := by
  unfold newProbesMap
  apply newProbesMapLoop_ok
  intro b hb
  exact h b ((ro.perm _).mem_iff.mp hb)

theorem probeNamePart_head (l rest : List Char) (ch : Char)
    (h : probeNamePart l ++ rest = ch :: List.tail (probeNamePart l ++ rest)) :
    ch = '-' ∨ ch = '.' := by
  cases l with
  | nil =>
    simp only [probeNamePart, List.singleton_append, List.tail_cons, List.cons.injEq] at h
    exact Or.inl h.1.symm
  | cons a l' =>
    simp only [probeNamePart, List.cons_append, List.tail_cons, List.cons.injEq] at h
    exact Or.inr h.1.symm

theorem generateProbeName_ne_default (serviceName servicePort ingress : String) :
    generateProbeName serviceName servicePort ingress ≠ sampleDefaultProbe.Name := by
  intro h
  have h2 := congrArg String.data h
  simp only [generateProbeName, sampleDefaultProbe] at h2
  have h3 := probeNamePart_head serviceName.data
    (probeNamePart servicePort.data ++ probeNamePart ingress.data) 'd'
    (by rw [h2]; rfl)
  rcases h3 with h3 | h3
  · exact absurd h3 (by decide)
  · exact absurd h3 (by decide)

/-! ## Facts about sorting by probe name -/

theorem ByHealthProbeName_not_Less (a b : ApplicationGatewayProbe) :
    ByHealthProbeName.Less b a = false ↔ a.Name ≤ b.Name := by
  have h : b.Name.data < a.Name.data ↔ b.Name < a.Name := (String.lt_iff_toList_lt).symm
  simp only [ByHealthProbeName.Less, decide_eq_false_iff_not, h, not_lt]

theorem sortSort_perm {α : Type} (less : α → α → Bool) (l : List α) :
    (sortSort less l).Perm l :=
  List.perm_insertionSort _ l

theorem sortSort_ByHealthProbeName_sorted (l : List ApplicationGatewayProbe) :
    List.Pairwise (fun a b => a.Name ≤ b.Name) (sortSort ByHealthProbeName.Less l) := by
  have htotal : IsTotal ApplicationGatewayProbe
      (fun a b => ByHealthProbeName.Less b a = false) :=
    ⟨fun a b => by
      simp only [ByHealthProbeName_not_Less]
      exact le_total a.Name b.Name⟩
  have htrans : IsTrans ApplicationGatewayProbe
      (fun a b => ByHealthProbeName.Less b a = false) :=
    ⟨fun a b d => by
      simp only [ByHealthProbeName_not_Less]
      exact le_trans⟩
  have hs := List.sorted_insertionSort (fun a b => ByHealthProbeName.Less b a = false) l
  exact List.Pairwise.imp (fun {a b} hab => (ByHealthProbeName_not_Less a b).mp hab) hs

/-- A list with distinct names that is in ascending order of name is in strictly
ascending order. -/
theorem strictly_sorted_of_nodup (l : List ApplicationGatewayProbe)
    (hs : List.Pairwise (fun a b => a.Name ≤ b.Name) l)
    (hnd : (l.map (fun p => p.Name)).Nodup) :
    List.Pairwise (fun a b => a.Name < b.Name) l := by
  have hne : List.Pairwise (fun a b => a.Name ≠ b.Name) l :=
    (List.pairwise_map (f := fun p : ApplicationGatewayProbe => p.Name)
      (R := fun x y => x ≠ y)).mp hnd
  exact List.Pairwise.imp (fun {a b} hab => lt_of_le_of_ne hab.1 hab.2) (hs.and hne)

/-- The name-to-probe collection of `newProbesMap` has distinct keys, and every probe
in it is stored under its own name. -/
theorem newProbesMap_collection_named (c : appGwConfigBuilder)
    (ro : RangeOrder backendIdentifier) (ingressList : List Ingress) (maps : ProbeMaps)
    (h : newProbesMap c ro ingressList = Except.ok maps) :
    (mapKeys maps.1).Nodup ∧ ∀ e ∈ maps.1, e.2.Name = e.1 := by
  unfold newProbesMap at h
  refine newProbesMapLoop_invariant c
    (fun m => (mapKeys m.1).Nodup ∧ ∀ e ∈ m.1, e.2.Name = e.1) _ _ maps ?_ ?_ ?_ h
  · intro b _ p hpc pm _ hinv
    refine ⟨nodup_mapKeys_mapSet hpc p.Name p hinv.1, ?_⟩
    intro e he
    rcases mem_mapSet hpc p.Name p e he with h1 | h1
    · rw [h1]
    · exact hinv.2 e h1
  · intro b _ hpc pm _ hinv
    exact hinv
  · simp [mapSet, mapKeys]

theorem map_Name_mapValues (m : List (String × ApplicationGatewayProbe))
    (h : ∀ e ∈ m, e.2.Name = e.1) :
    (mapValues m).map (fun p => p.Name) = mapKeys m := by
  induction m with
  | nil => rfl
  | cons e rest ih =>
    have h1 := h e (List.mem_cons_self _ _)
    have h2 := ih (fun e' he' => h e' (List.mem_cons_of_mem _ he'))
    simp only [mapValues, mapKeys, List.map_cons, List.map_map] at h2 ⊢
    rw [h2]
    simp [h1]

/-! ## Facts about the fields of the generated probe -/

theorem mergeContainerProbe_Path (probe : ApplicationGatewayProbe) (k8sProbe : Probe)
    (httpGet : HTTPGetAction) :
    (mergeContainerProbe probe k8sProbe httpGet).Path =
      if httpGet.Path ≠ "" then httpGet.Path else probe.Path := by
  unfold mergeContainerProbe
  simp only
  repeat' split
  all_goals rfl

theorem applyRuleHost_Path (probe : ApplicationGatewayProbe)
    (backendID : backendIdentifier) : (applyRuleHost probe backendID).Path = probe.Path := by
  unfold applyRuleHost
  repeat' split
  all_goals rfl

theorem applyPath_Path (c : appGwConfigBuilder) (probe : ApplicationGatewayProbe)
    (backendID : backendIdentifier) :
    (applyPath c probe backendID).Path =
      match c.helpers.BackendPathPrefix backendID.Ingress with
      | some pathPrefix => pathPrefix
      | none =>
        match backendID.Path with
        | some path => if path.Path ≠ "" then path.Path else probe.Path
        | none => probe.Path := by
  unfold applyPath
  repeat' split
  all_goals rfl

theorem probeNamePart_inj (l l' x x' : List Char)
    (h : probeNamePart l ++ x = probeNamePart l' ++ x') : l = l' ∧ x = x' := by
  induction l generalizing l' with
  | nil =>
    cases l' with
    | nil =>
      simp only [probeNamePart, List.singleton_append, List.cons.injEq, true_and] at h
      exact ⟨rfl, h⟩
    | cons a' r' =>
      simp only [probeNamePart, List.singleton_append, List.cons_append,
        List.cons.injEq] at h
      exact absurd h.1 (by decide)
  | cons a r ih =>
    cases l' with
    | nil =>
      simp only [probeNamePart, List.singleton_append, List.cons_append,
        List.cons.injEq] at h
      exact absurd h.1 (by decide)
    | cons a' r' =>
      simp only [probeNamePart, List.cons_append, List.cons.injEq, true_and] at h
      obtain ⟨h1, h2⟩ := ih r' h.2
      exact ⟨by rw [h.1, h1], h2⟩

theorem generateProbeName_injective (s p i s' p' i' : String)
    (h : generateProbeName s p i = generateProbeName s' p' i') :
    s = s' ∧ p = p' ∧ i = i' := by
  have h2 := congrArg String.data h
  simp only [generateProbeName] at h2
  obtain ⟨h3, h4⟩ := probeNamePart_inj _ _ _ _ h2
  obtain ⟨h5, h6⟩ := probeNamePart_inj _ _ _ _ h4
  have h7 : probeNamePart i.data ++ [] = probeNamePart i'.data ++ [] := by
    simpa using h6
  obtain ⟨h8, _⟩ := probeNamePart_inj _ _ _ _ h7
  exact ⟨String.ext h3, String.ext h5, String.ext h8⟩

theorem collectPorts_eq_nil (builder : appGwConfigBuilder) (roIngress : RangeOrder Int)
    (l : List Ingress)
    (h : ∀ ingress ∈ l, builder.helpers.processIngressRules ingress = []) :
    collectPorts builder roIngress l [] = [] := by
  apply List.eq_nil_iff_forall_not_mem.mpr
  intro x hx
  rw [mem_collectPorts] at hx
  rcases hx with hx | ⟨ingress, hi, hx⟩
  · simp at hx
  · rw [h ingress hi] at hx
    simp at hx

theorem collectPorts_ne_nil (builder : appGwConfigBuilder) (roIngress : RangeOrder Int)
    (l : List Ingress)
    (h : ∃ ingress ∈ l, builder.helpers.processIngressRules ingress ≠ []) :
    collectPorts builder roIngress l [] ≠ [] := by
  obtain ⟨ingress, hi, hne⟩ := h
  obtain ⟨x, hx⟩ := List.exists_mem_of_ne_nil _ hne
  intro hnil
  have hmem : x ∈ collectPorts builder roIngress l [] :=
    (mem_collectPorts builder roIngress l [] x).mpr (Or.inr ⟨ingress, hi, hx⟩)
  rw [hnil] at hmem
  simp at hmem

theorem getFrontendPorts_ports (builder : appGwConfigBuilder)
    (roIngress roAll : RangeOrder Int) (l : List Ingress)
    (h : collectPorts builder roIngress l [] ≠ []) :
    (getFrontendPorts builder roIngress roAll l).map (fun fp => fp.Port) =
      roAll.iter (collectPorts builder roIngress l []) := by
  have hlen : ¬ (collectPorts builder roIngress l []).length = 0 := by
    intro h0
    exact h (List.length_eq_zero.mp h0)
  simp only [getFrontendPorts, hlen, if_false]
  exact map_Port_newFrontendPort builder _

/-! ## Theorems on `getFrontendPorts` -/

/-- C1: when at least one ingress of the list yields a frontend port, no port value
occurs twice in the result of `getFrontendPorts`, and a port value occurs in it exactly
when `processIngressRules` returns it for some ingress of the list. -/
theorem getFrontendPorts_distinct_union (builder : appGwConfigBuilder)
    (roIngress roAll : RangeOrder Int) (ingressList : List Ingress)
    (h : ∃ ingress ∈ ingressList, builder.helpers.processIngressRules ingress ≠ []) :
    ((getFrontendPorts builder roIngress roAll ingressList).map (fun fp => fp.Port)).Nodup ∧
    ∀ port : Int,
      port ∈ (getFrontendPorts builder roIngress roAll ingressList).map (fun fp => fp.Port) ↔
        ∃ ingress ∈ ingressList, port ∈ builder.helpers.processIngressRules ingress := by
  have hne := collectPorts_ne_nil builder roIngress ingressList h
  rw [getFrontendPorts_ports builder roIngress roAll ingressList hne]
  constructor
  · exact (roAll.perm _).nodup_iff.mpr
      (nodup_collectPorts builder roIngress ingressList [] List.nodup_nil)
  · intro port
    rw [(roAll.perm _).mem_iff, mem_collectPorts]
    simp

/-- Witness of C1: an ingress with rules next to an ingress without. -/
theorem getFrontendPorts_distinct_union_witness :
    (∃ ingress ∈ [webIngress, emptyIngress],
        sampleBuilder.helpers.processIngressRules ingress ≠ []) ∧
    (((getFrontendPorts sampleBuilder (RangeOrder.stored Int) (RangeOrder.reversed Int)
        [webIngress, emptyIngress]).map (fun fp => fp.Port)).Nodup ∧
    ∀ port : Int,
      port ∈ (getFrontendPorts sampleBuilder (RangeOrder.stored Int) (RangeOrder.reversed Int)
          [webIngress, emptyIngress]).map (fun fp => fp.Port) ↔
        ∃ ingress ∈ [webIngress, emptyIngress],
          port ∈ sampleBuilder.helpers.processIngressRules ingress) :=
  ⟨⟨webIngress, by decide, by decide⟩,
    getFrontendPorts_distinct_union sampleBuilder (RangeOrder.stored Int)
      (RangeOrder.reversed Int) [webIngress, emptyIngress]
      ⟨webIngress, by decide, by decide⟩⟩

/-- C2: when no ingress of the list yields a frontend port, `getFrontendPorts` returns
exactly one entry, with the default frontend listener's port and the name
`generateFrontendPortName` gives that port; and whatever the list, the result is not
empty. -/
theorem getFrontendPorts_default_port (builder : appGwConfigBuilder)
    (roIngress roAll : RangeOrder Int) (ingressList : List Ingress) :
    ((∀ ingress ∈ ingressList, builder.helpers.processIngressRules ingress = []) →
      getFrontendPorts builder roIngress roAll ingressList =
        [{ Etag := "*"
           Name := builder.helpers.generateFrontendPortName builder.helpers.defaultFrontendPort
           Port := builder.helpers.defaultFrontendPort }]) ∧
    getFrontendPorts builder roIngress roAll ingressList ≠ [] := by
  constructor
  · intro h
    have hnil := collectPorts_eq_nil builder roIngress ingressList h
    have hone : roAll.iter [builder.helpers.defaultFrontendPort] =
        [builder.helpers.defaultFrontendPort] :=
      List.perm_singleton.mp (roAll.perm _)
    simp [getFrontendPorts, hnil, setAdd, hone, newFrontendPort]
  · intro hempty
    have hmap : (getFrontendPorts builder roIngress roAll ingressList).map
        (fun fp => fp.Port) = [] := by rw [hempty]; rfl
    by_cases hc : collectPorts builder roIngress ingressList [] = []
    · have hone : roAll.iter [builder.helpers.defaultFrontendPort] =
          [builder.helpers.defaultFrontendPort] :=
        List.perm_singleton.mp (roAll.perm _)
      simp [getFrontendPorts, hc, setAdd, hone] at hempty
    · rw [getFrontendPorts_ports builder roIngress roAll ingressList hc] at hmap
      have hp := roAll.perm (collectPorts builder roIngress ingressList [])
      rw [hmap] at hp
      exact hc (List.nil_perm.mp hp)

/-- Witness of C2: the empty list and a list of one ingress without rules. -/
theorem getFrontendPorts_default_port_witness :
    getFrontendPorts sampleBuilder (RangeOrder.stored Int) (RangeOrder.stored Int) [] =
      [{ Etag := "*", Name := "fp-80", Port := 80 }] ∧
    getFrontendPorts sampleBuilder (RangeOrder.stored Int) (RangeOrder.stored Int)
      [emptyIngress] = [{ Etag := "*", Name := "fp-80", Port := 80 }] :=
  ⟨(getFrontendPorts_default_port sampleBuilder (RangeOrder.stored Int)
      (RangeOrder.stored Int) []).1 (by decide),
   (getFrontendPorts_default_port sampleBuilder (RangeOrder.stored Int)
      (RangeOrder.stored Int) [emptyIngress]).1 (by decide)⟩

/-! ## Theorems on `newProbesMap` -/

/-- C3: whenever `newProbesMap` returns, the default probe's name is a key of the
name-to-probe collection, and the probe stored under it is the default probe as long as
`generateProbeName` never produces the default probe's name. It returns whenever no
backend identifier of the list has an existing service and an absent path. -/
theorem newProbesMap_default_probe (c : appGwConfigBuilder)
    (ro : RangeOrder backendIdentifier) (ingressList : List Ingress) :
    ((∀ b ∈ c.helpers.newBackendIds ingressList,
        c.k8sContext.GetService b.serviceKey ≠ none → b.Path ≠ none) →
      ∃ maps, newProbesMap c ro ingressList = Except.ok maps) ∧
    ∀ maps, newProbesMap c ro ingressList = Except.ok maps →
      c.helpers.defaultProbe.Name ∈ mapKeys maps.1 ∧
      ((∀ serviceName servicePort ingress,
          c.helpers.generateProbeName serviceName servicePort ingress ≠
            c.helpers.defaultProbe.Name) →
        mapGet maps.1 c.helpers.defaultProbe.Name = some c.helpers.defaultProbe) := by
  refine ⟨newProbesMap_ok c ro ingressList, ?_⟩
  intro maps h
  unfold newProbesMap at h
  constructor
  · rw [newProbesMapLoop_collection_keys c _ _ maps h]
    left
    simp [mapSet, mapKeys]
  · intro hname
    refine newProbesMapLoop_invariant c
      (fun m => mapGet m.1 c.helpers.defaultProbe.Name = some c.helpers.defaultProbe)
      _ _ maps ?_ ?_ ?_ h
    · intro b _ p hpc pm hg hinv
      obtain ⟨service, path, _, _, hn⟩ := generateHealthProbe_some c b p hg
      have hne : c.helpers.defaultProbe.Name ≠ p.Name := by
        rw [hn]
        exact fun e => hname _ _ _ e.symm
      simp only at hinv ⊢
      rw [mapGet_mapSet_ne hpc p.Name _ p hne]
      exact hinv
    · intro b _ hpc pm _ hinv
      exact hinv
    · exact mapGet_mapSet_self [] _ _

/-- Witness of C3: an ingress with two backends of an existing service and an ingress
whose backend has no service. -/
theorem newProbesMap_default_probe_witness :
    ∃ maps, newProbesMap sampleBuilder (RangeOrder.stored backendIdentifier)
        [webIngress, lostIngress] = Except.ok maps ∧
      sampleDefaultProbe.Name ∈ mapKeys maps.1 ∧
      mapGet maps.1 sampleDefaultProbe.Name = some sampleDefaultProbe := by
  have h := newProbesMap_default_probe sampleBuilder (RangeOrder.stored backendIdentifier)
    [webIngress, lostIngress]
  obtain ⟨maps, hm⟩ := h.1 (by decide)
  exact ⟨maps, hm, (h.2 maps hm).1, (h.2 maps hm).2 generateProbeName_ne_default⟩

/-- C4: for a backend identifier whose service lookup returns nothing,
`generateHealthProbe` returns nothing; the step of the loop of `newProbesMap` for it
leaves the name-to-probe collection as it is and stores the default probe for it; and
when the identifier belongs to the list, every result of `newProbesMap` maps it to the
default probe. -/
theorem newProbesMap_missing_service (c : appGwConfigBuilder)
    (ro : RangeOrder backendIdentifier) (ingressList : List Ingress)
    (b : backendIdentifier) (hsvc : c.k8sContext.GetService b.serviceKey = none) :
    generateHealthProbe c b = Except.ok none ∧
    (∀ rest healthProbeCollection probesMap,
      newProbesMapLoop c (b :: rest) (healthProbeCollection, probesMap) =
        newProbesMapLoop c rest
          (healthProbeCollection, mapSet probesMap b c.helpers.defaultProbe)) ∧
    (b ∈ c.helpers.newBackendIds ingressList →
      ∀ maps, newProbesMap c ro ingressList = Except.ok maps →
        mapGet maps.2 b = some c.helpers.defaultProbe) := by
  have hg := generateHealthProbe_no_service c b hsvc
  refine ⟨hg, ?_, ?_⟩
  · intro rest hpc pm
    exact newProbesMapLoop_cons_none c b rest hpc pm hg
  · intro hb maps h
    unfold newProbesMap at h
    exact (newProbesMapLoop_probesMap c _ _ maps h b).2.2
      ((ro.perm _).mem_iff.mpr hb) hg

/-- Witness of C4: the backend of `lostIngress`, whose service `svc2` does not exist. -/
theorem newProbesMap_missing_service_witness :
    sampleBuilder.k8sContext.GetService backendLost.serviceKey = none ∧
    generateHealthProbe sampleBuilder backendLost = Except.ok none ∧
    ∃ maps, newProbesMap sampleBuilder (RangeOrder.stored backendIdentifier)
        [webIngress, lostIngress] = Except.ok maps ∧
      mapGet maps.2 backendLost = some sampleDefaultProbe := by
  have h := newProbesMap_missing_service sampleBuilder
    (RangeOrder.stored backendIdentifier) [webIngress, lostIngress] backendLost (by decide)
  obtain ⟨maps, hm⟩ := newProbesMap_ok sampleBuilder (RangeOrder.stored backendIdentifier)
    [webIngress, lostIngress] (by decide)
  exact ⟨by decide, h.1, maps, hm, h.2.2 (by decide) maps hm⟩

/-- C5: whenever `newProbesMap` returns, the keys of the backend-to-probe map are
distinct and are exactly the backend identifiers `newBackendIds` gives for the list,
and each of them has exactly one probe in the map. It returns whenever no backend
identifier of the list has an existing service and an absent path. -/
theorem newProbesMap_backend_keys (c : appGwConfigBuilder)
    (ro : RangeOrder backendIdentifier) (ingressList : List Ingress) :
    ((∀ b ∈ c.helpers.newBackendIds ingressList,
        c.k8sContext.GetService b.serviceKey ≠ none → b.Path ≠ none) →
      ∃ maps, newProbesMap c ro ingressList = Except.ok maps) ∧
    ∀ maps, newProbesMap c ro ingressList = Except.ok maps →
      (mapKeys maps.2).Nodup ∧
      (∀ b, b ∈ mapKeys maps.2 ↔ b ∈ c.helpers.newBackendIds ingressList) ∧
      (∀ b ∈ c.helpers.newBackendIds ingressList, ∃! p, (b, p) ∈ maps.2) := by
  refine ⟨newProbesMap_ok c ro ingressList, ?_⟩
  intro maps h
  unfold newProbesMap at h
  have hnd : (mapKeys maps.2).Nodup := by
    refine newProbesMapLoop_invariant c (fun m => (mapKeys m.2).Nodup) _ _ maps ?_ ?_ ?_ h
    · intro b _ p hpc pm _ hinv
      exact nodup_mapKeys_mapSet pm b p hinv
    · intro b _ hpc pm _ hinv
      exact nodup_mapKeys_mapSet pm b _ hinv
    · simp [mapKeys]
  have hkeys : ∀ b, b ∈ mapKeys maps.2 ↔ b ∈ c.helpers.newBackendIds ingressList := by
    intro b
    obtain ⟨h1, h2, h3⟩ := newProbesMapLoop_probesMap c _ _ maps h b
    rw [mem_mapKeys_iff, ← (ro.perm (c.helpers.newBackendIds ingressList)).mem_iff]
    constructor
    · rintro ⟨v, hv⟩
      by_contra hb
      rw [h1 hb] at hv
      simp [mapGet] at hv
    · intro hb
      rcases newProbesMapLoop_no_fault c _ _ maps h b hb with hg | ⟨p, hg⟩
      · exact ⟨_, h3 hb hg⟩
      · exact ⟨p, h2 hb p hg⟩
  refine ⟨hnd, hkeys, ?_⟩
  intro b hb
  obtain ⟨p, hp⟩ := (mem_mapKeys_iff maps.2 b).mp ((hkeys b).mpr hb)
  refine ⟨p, (mapGet_eq_some_iff maps.2 b p hnd).mp hp, ?_⟩
  intro q hq
  have hq2 := (mapGet_eq_some_iff maps.2 b q hnd).mpr hq
  rw [hp] at hq2
  exact (Option.some.inj hq2).symm

/-- Witness of C5: the three backend identifiers of the sample list. -/
theorem newProbesMap_backend_keys_witness :
    ∃ maps, newProbesMap sampleBuilder (RangeOrder.reversed backendIdentifier)
        [webIngress, lostIngress] = Except.ok maps ∧
      (mapKeys maps.2).Nodup ∧
      (∀ b, b ∈ mapKeys maps.2 ↔ b ∈ [backendA, backendB, backendLost]) := by
  have h := newProbesMap_backend_keys sampleBuilder (RangeOrder.reversed backendIdentifier)
    [webIngress, lostIngress]
  obtain ⟨maps, hm⟩ := h.1 (by decide)
  exact ⟨maps, hm, (h.2 maps hm).1, (h.2 maps hm).2.1⟩

/-! ## Theorems on `HealthProbesCollection` -/

/-- C6: whenever `HealthProbesCollection` returns, the error it returns is `nil`, the
committed probe list is in strictly ascending order of probe name (so no two entries
share a name), and it is a rearrangement of the values of the name-to-probe collection
of `newProbesMap`. It returns whenever no backend identifier of the list has an
existing service and an absent path. -/
theorem HealthProbesCollection_sorted (c : appGwConfigBuilder)
    (roIDs : RangeOrder backendIdentifier)
    (roProbes : RangeOrder (String × ApplicationGatewayProbe))
    (ingressList : List Ingress) :
    ((∀ b ∈ c.helpers.newBackendIds ingressList,
        c.k8sContext.GetService b.serviceKey ≠ none → b.Path ≠ none) →
      ∃ probes, HealthProbesCollection c roIDs roProbes ingressList =
        Except.ok (probes, none)) ∧
    ∀ r, HealthProbesCollection c roIDs roProbes ingressList = Except.ok r →
      r.2 = none ∧
      List.Sorted (fun a b => a.Name < b.Name) r.1 ∧
      ∃ maps, newProbesMap c roIDs ingressList = Except.ok maps ∧
        List.Perm r.1 (mapValues maps.1) := by
  constructor
  · intro hok
    obtain ⟨maps, hm⟩ := newProbesMap_ok c roIDs ingressList hok
    obtain ⟨hpc, pm⟩ := maps
    exact ⟨sortSort ByHealthProbeName.Less ((roProbes.iter hpc).map Prod.snd),
      by simp only [HealthProbesCollection, hm]⟩
  · intro r h
    cases hm : newProbesMap c roIDs ingressList with
    | error e =>
      simp only [HealthProbesCollection, hm] at h
      cases h
    | ok maps =>
      obtain ⟨hpc, pm⟩ := maps
      simp only [HealthProbesCollection, hm, Except.ok.injEq] at h
      subst h
      have hperm : List.Perm
          (sortSort ByHealthProbeName.Less ((roProbes.iter hpc).map Prod.snd))
          (mapValues hpc) :=
        (sortSort_perm _ _).trans ((roProbes.perm hpc).map Prod.snd)
      obtain ⟨hnd, hnamed⟩ := newProbesMap_collection_named c roIDs ingressList _ hm
      have hnames : ((sortSort ByHealthProbeName.Less
          ((roProbes.iter hpc).map Prod.snd)).map (fun p => p.Name)).Nodup := by
        refine ((hperm.map (fun p => p.Name)).nodup_iff).mpr ?_
        rw [map_Name_mapValues hpc hnamed]
        exact hnd
      exact ⟨rfl,
        strictly_sorted_of_nodup _ (sortSort_ByHealthProbeName_sorted _) hnames,
        (hpc, pm), rfl, hperm⟩

/-- Witness of C6: the sample list commits two probes, the generated one before the
default one. -/
theorem HealthProbesCollection_sorted_witness :
    ∃ probes, HealthProbesCollection sampleBuilder (RangeOrder.stored backendIdentifier)
        (RangeOrder.reversed (String × ApplicationGatewayProbe))
        [webIngress, lostIngress] = Except.ok (probes, none) ∧
      List.Sorted (fun a b => a.Name < b.Name) probes ∧
      probes.map (fun p => p.Name) = [".s.v.c.1-.8.0-.w.e.b-", "defaultprobe"] := by
  have h := HealthProbesCollection_sorted sampleBuilder (RangeOrder.stored backendIdentifier)
    (RangeOrder.reversed (String × ApplicationGatewayProbe)) [webIngress, lostIngress]
  obtain ⟨probes, hp⟩ := h.1 (by decide)
  refine ⟨probes, hp, (h.2 _ hp).2.1, ?_⟩
  have hv : HealthProbesCollection sampleBuilder (RangeOrder.stored backendIdentifier)
      (RangeOrder.reversed (String × ApplicationGatewayProbe))
      [webIngress, lostIngress] =
      Except.ok ([{ sampleDefaultProbe with
          Name := ".s.v.c.1-.8.0-.w.e.b-", Host := "b.example.com", Path := "/healthz",
          Interval := 15 }, sampleDefaultProbe], none) := by
    decide
  rw [hv] at hp
  cases hp
  rfl

/-- C7: the sample ingress routes two hosts to one service, so its two backend
identifiers get probes of the same name and different hosts; the committed list holds
the probe of the identifier visited last, host `b.example.com` in one visiting order
and host `a.example.com` in the other. -/
theorem HealthProbesCollection_order_dependent :
    HealthProbesCollection sampleBuilder (RangeOrder.stored backendIdentifier)
        (RangeOrder.stored (String × ApplicationGatewayProbe)) [webIngress] =
      Except.ok ([{ Name := ".s.v.c.1-.8.0-.w.e.b-"
                    Protocol := ApplicationGatewayProtocol.HTTP
                    Host := "b.example.com", Path := "/healthz", Interval := 15
                    Timeout := 30, UnhealthyThreshold := 3 }, sampleDefaultProbe], none) ∧
    HealthProbesCollection sampleBuilder (RangeOrder.reversed backendIdentifier)
        (RangeOrder.stored (String × ApplicationGatewayProbe)) [webIngress] =
      Except.ok ([{ Name := ".s.v.c.1-.8.0-.w.e.b-"
                    Protocol := ApplicationGatewayProtocol.HTTP
                    Host := "a.example.com", Path := "/healthz", Interval := 15
                    Timeout := 30, UnhealthyThreshold := 3 }, sampleDefaultProbe], none) ∧
    sampleBuilder.helpers.newBackendIds [webIngress] = [backendA, backendB] := by
  refine ⟨by decide, by decide, by decide⟩

/-! ## Theorems on `generateHealthProbe` -/

/-- C8, counterexample: two backends of the same ingress and service that differ in the
service port, numeric `80` against named `80`, get probes of the same name. -/
theorem generateHealthProbe_name_numeric_named :
    backendA.Ingress.Name = backendNamed.Ingress.Name ∧
    (∃ path1 path2, backendA.Path = some path1 ∧ backendNamed.Path = some path2 ∧
      path1.Backend.ServiceName = path2.Backend.ServiceName ∧
      path1.Backend.ServicePort ≠ path2.Backend.ServicePort) ∧
    ∃ p1 p2, generateHealthProbe sampleBuilder backendA = Except.ok (some p1) ∧
      generateHealthProbe sampleBuilder backendNamed = Except.ok (some p2) ∧
      p1.Name = p2.Name := by
  refine ⟨by decide, ⟨_, _, rfl, rfl, by decide, by decide⟩, ?_⟩
  refine ⟨{ sampleDefaultProbe with
      Name := ".s.v.c.1-.8.0-.w.e.b-", Host := "a.example.com", Path := "/healthz",
      Interval := 15 },
    { sampleDefaultProbe with
      Name := ".s.v.c.1-.8.0-.w.e.b-", Host := "a.example.com", Path := "/healthz",
      Interval := 15 }, by decide, by decide, rfl⟩

/-- C8, amended: two backend identifiers with existing services and present path rules
both get a probe. Whatever `generateProbeName` is, the two names are equal when the
backends have the same service name, the same service-port text and the same ingress
name. With the `generateProbeName` of the spec the names are equal exactly then: they
are different when the backends differ in service name, in service-port text or in
ingress name. -/
theorem generateHealthProbe_name (c : appGwConfigBuilder) (b1 b2 : backendIdentifier)
    (service1 service2 : Service) (path1 path2 : HTTPIngressPath)
    (hs1 : c.k8sContext.GetService b1.serviceKey = some service1)
    (hs2 : c.k8sContext.GetService b2.serviceKey = some service2)
    (hp1 : b1.Path = some path1) (hp2 : b2.Path = some path2) :
    (∃ p1 p2, generateHealthProbe c b1 = Except.ok (some p1) ∧
      generateHealthProbe c b2 = Except.ok (some p2) ∧
      ((path1.Backend.ServiceName = path2.Backend.ServiceName ∧
          path1.Backend.ServicePort.String = path2.Backend.ServicePort.String ∧
          b1.Ingress.Name = b2.Ingress.Name) → p1.Name = p2.Name)) ∧
    (∃ p1 p2,
      generateHealthProbe
        { k8sContext := c.k8sContext
          helpers := { c.helpers with generateProbeName := generateProbeName } } b1 =
        Except.ok (some p1) ∧
      generateHealthProbe
        { k8sContext := c.k8sContext
          helpers := { c.helpers with generateProbeName := generateProbeName } } b2 =
        Except.ok (some p2) ∧
      (p1.Name = p2.Name ↔
        (path1.Backend.ServiceName = path2.Backend.ServiceName ∧
          path1.Backend.ServicePort.String = path2.Backend.ServicePort.String ∧
          b1.Ingress.Name = b2.Ingress.Name))) := by
  have hnames : ∀ (d : appGwConfigBuilder),
      d.k8sContext.GetService b1.serviceKey = some service1 →
      d.k8sContext.GetService b2.serviceKey = some service2 →
      ∃ p1 p2, generateHealthProbe d b1 = Except.ok (some p1) ∧
        generateHealthProbe d b2 = Except.ok (some p2) ∧
        p1.Name = d.helpers.generateProbeName path1.Backend.ServiceName
          path1.Backend.ServicePort.String b1.Ingress.Name ∧
        p2.Name = d.helpers.generateProbeName path2.Backend.ServiceName
          path2.Backend.ServicePort.String b2.Ingress.Name := by
    intro d hd1 hd2
    have hne1 : b1.Path ≠ none := by rw [hp1]; simp
    have hne2 : b2.Path ≠ none := by rw [hp2]; simp
    obtain ⟨p1, h1⟩ := generateHealthProbe_returns d b1 service1 hd1 hne1
    obtain ⟨p2, h2⟩ := generateHealthProbe_returns d b2 service2 hd2 hne2
    obtain ⟨_, q1, _, hq1, hn1⟩ := generateHealthProbe_some d b1 p1 h1
    obtain ⟨_, q2, _, hq2, hn2⟩ := generateHealthProbe_some d b2 p2 h2
    rw [hp1] at hq1
    rw [hp2] at hq2
    cases hq1
    cases hq2
    exact ⟨p1, p2, h1, h2, hn1, hn2⟩
  constructor
  · obtain ⟨p1, p2, h1, h2, hn1, hn2⟩ := hnames c hs1 hs2
    refine ⟨p1, p2, h1, h2, ?_⟩
    rintro ⟨e1, e2, e3⟩
    rw [hn1, hn2, e1, e2, e3]
  · obtain ⟨p1, p2, h1, h2, hn1, hn2⟩ := hnames
      { k8sContext := c.k8sContext
        helpers := { c.helpers with generateProbeName := generateProbeName } } hs1 hs2
    refine ⟨p1, p2, h1, h2, ?_⟩
    rw [hn1, hn2]
    constructor
    · intro e
      exact generateProbeName_injective _ _ _ _ _ _ e
    · rintro ⟨e1, e2, e3⟩
      rw [e1, e2, e3]

/-- Witness of C8, amended: the backends with the numeric and with the named port `80`
get the same name, and a backend of another service gets another name. -/
theorem generateHealthProbe_name_witness :
    (∃ p1 p2, generateHealthProbe sampleBuilder backendA = Except.ok (some p1) ∧
      generateHealthProbe sampleBuilder backendNamed = Except.ok (some p2) ∧
      p1.Name = p2.Name) ∧
    (∃ p1 p2, generateHealthProbe secondBuilder backendA = Except.ok (some p1) ∧
      generateHealthProbe secondBuilder backendSecure = Except.ok (some p2) ∧
      p1.Name ≠ p2.Name) := by
  constructor
  · obtain ⟨p1, p2, h1, h2, h3⟩ := (generateHealthProbe_name sampleBuilder backendA
      backendNamed sampleService sampleService svc1Path
      { Path := "/app", Backend := svc1NamedBackend } (by decide) (by decide) rfl rfl).1
    exact ⟨p1, p2, h1, h2, h3 (by decide)⟩
  · obtain ⟨p1, p2, h1, h2, h3⟩ := (generateHealthProbe_name secondBuilder backendA
      backendSecure sampleService secureService svc1Path
      { Path := "/secure", Backend := secureBackend } (by decide) (by decide) rfl rfl).2
    refine ⟨p1, p2, h1, h2, ?_⟩
    intro e
    exact absurd (h3.mp e).1 (by decide)

/-- C9: for the identifier of a default backend, which has no rule and no path, and
whose service exists, `generateHealthProbe` faults at the read of
`backendID.Path.Backend`. -/
theorem generateHealthProbe_default_backend_fault :
    sampleBuilder.k8sContext.GetService backendDefault.serviceKey = some sampleService ∧
    backendDefault.Path = none ∧
    generateHealthProbe sampleBuilder backendDefault =
      Except.error Fault.nilDereference := by
  refine ⟨by decide, rfl, by decide⟩

/-- C10: for a backend identifier with an existing service, every probe
`generateHealthProbe` returns has as its path the non-empty HTTP-GET path of the
container probe when there is one, otherwise the value of the path-prefix annotation
when it is present, otherwise the non-empty path of the path rule, otherwise the path
of the default probe; and a probe is returned whenever the path rule is present. -/
theorem generateHealthProbe_path_precedence (c : appGwConfigBuilder)
    (b : backendIdentifier) (service : Service)
    (hs : c.k8sContext.GetService b.serviceKey = some service) :
    (b.Path ≠ none → ∃ p, generateHealthProbe c b = Except.ok (some p)) ∧
    ∀ p, generateHealthProbe c b = Except.ok (some p) →
      p.Path =
        match (getProbeForServiceContainer c service b).bind
            (fun k8sProbe => k8sProbe.Handler.HTTPGet) with
        | some httpGet =>
          if httpGet.Path ≠ "" then httpGet.Path
          else
            match c.helpers.BackendPathPrefix b.Ingress with
            | some pathPrefix => pathPrefix
            | none =>
              match b.Path with
              | some path => if path.Path ≠ "" then path.Path else c.helpers.defaultProbe.Path
              | none => c.helpers.defaultProbe.Path
        | none =>
          match c.helpers.BackendPathPrefix b.Ingress with
          | some pathPrefix => pathPrefix
          | none =>
            match b.Path with
            | some path => if path.Path ≠ "" then path.Path else c.helpers.defaultProbe.Path
            | none => c.helpers.defaultProbe.Path := by
  constructor
  · intro hp
    cases hpath : b.Path with
    | none => exact absurd hpath hp
    | some path =>
      rcases generateHealthProbe_path c b service path hs hpath with
        ⟨_, h⟩ | ⟨_, _, _, _, h⟩
      · exact ⟨_, h⟩
      · exact ⟨_, h⟩
  · intro p h
    obtain ⟨service2, path, hs2, hpath, _⟩ := generateHealthProbe_some c b p h
    rw [hs] at hs2
    cases hs2
    rcases generateHealthProbe_path c b service path hs hpath with
      ⟨hk, h2⟩ | ⟨k8sProbe, httpGet, hk, hget, h2⟩
    · rw [h2] at h
      cases h
      rw [hk, applyPath_Path, applyRuleHost_Path]
      simp only [Option.bind]
    · rw [h2] at h
      cases h
      rw [hk, mergeContainerProbe_Path, applyPath_Path, applyRuleHost_Path]
      simp only [Option.bind, hget]

/-- Witness of C10: the sample backend takes the path `/healthz` of its container's
readiness probe. -/
theorem generateHealthProbe_path_precedence_witness :
    ∃ p, generateHealthProbe sampleBuilder backendA = Except.ok (some p) ∧
      p.Path = "/healthz" := by
  have h := generateHealthProbe_path_precedence sampleBuilder backendA sampleService
    (by decide)
  obtain ⟨p, hp⟩ := h.1 (by decide)
  refine ⟨p, hp, ?_⟩
  rw [h.2 p hp]
  decide

/-! ## Facts about the merge of the container probe -/

/-- The fields the host and path steps of `generateHealthProbe` leave alone. -/
theorem applyRuleHost_fields (probe : ApplicationGatewayProbe)
    (backendID : backendIdentifier) :
    (applyRuleHost probe backendID).Protocol = probe.Protocol ∧
    (applyRuleHost probe backendID).Interval = probe.Interval ∧
    (applyRuleHost probe backendID).Timeout = probe.Timeout ∧
    (applyRuleHost probe backendID).UnhealthyThreshold = probe.UnhealthyThreshold := by
  unfold applyRuleHost
  repeat' split
  all_goals exact ⟨rfl, rfl, rfl, rfl⟩

theorem applyPath_fields (c : appGwConfigBuilder) (probe : ApplicationGatewayProbe)
    (backendID : backendIdentifier) :
    (applyPath c probe backendID).Protocol = probe.Protocol ∧
    (applyPath c probe backendID).Interval = probe.Interval ∧
    (applyPath c probe backendID).Timeout = probe.Timeout ∧
    (applyPath c probe backendID).UnhealthyThreshold = probe.UnhealthyThreshold ∧
    (applyPath c probe backendID).Host = probe.Host := by
  unfold applyPath
  repeat' split
  all_goals exact ⟨rfl, rfl, rfl, rfl, rfl⟩

theorem applyRuleHost_Host (probe : ApplicationGatewayProbe)
    (backendID : backendIdentifier) :
    (applyRuleHost probe backendID).Host =
      match backendID.Rule with
      | some rule => if rule.Host ≠ "" then rule.Host else probe.Host
      | none => probe.Host := by
  unfold applyRuleHost
  repeat' split
  all_goals rfl

theorem mergeContainerProbe_Interval (probe : ApplicationGatewayProbe) (k8sProbe : Probe)
    (httpGet : HTTPGetAction) :
    (mergeContainerProbe probe k8sProbe httpGet).Interval =
      (if k8sProbe.PeriodSeconds ≠ 0 then k8sProbe.PeriodSeconds else probe.Interval) := by
  unfold mergeContainerProbe
  simp only
  repeat' split
  all_goals rfl

theorem mergeContainerProbe_Timeout (probe : ApplicationGatewayProbe) (k8sProbe : Probe)
    (httpGet : HTTPGetAction) :
    (mergeContainerProbe probe k8sProbe httpGet).Timeout =
      (if k8sProbe.TimeoutSeconds ≠ 0 then k8sProbe.TimeoutSeconds else probe.Timeout) := by
  unfold mergeContainerProbe
  simp only
  repeat' split
  all_goals rfl

theorem mergeContainerProbe_UnhealthyThreshold (probe : ApplicationGatewayProbe)
    (k8sProbe : Probe) (httpGet : HTTPGetAction) :
    (mergeContainerProbe probe k8sProbe httpGet).UnhealthyThreshold =
      (if k8sProbe.FailureThreshold ≠ 0 then k8sProbe.FailureThreshold
        else probe.UnhealthyThreshold) := by
  unfold mergeContainerProbe
  simp only
  repeat' split
  all_goals rfl

theorem mergeContainerProbe_Protocol (probe : ApplicationGatewayProbe) (k8sProbe : Probe)
    (httpGet : HTTPGetAction) :
    (mergeContainerProbe probe k8sProbe httpGet).Protocol =
      (if httpGet.Scheme = URISchemeHTTPS then ApplicationGatewayProtocol.HTTPS
        else probe.Protocol) := by
  unfold mergeContainerProbe
  simp only
  repeat' split
  all_goals rfl

/-! ## Theorems on the merge of the container probe -/

/-- C11: for a backend identifier with an existing service for which a container probe
is found, every probe `generateHealthProbe` returns has as interval, timeout and
unhealthy threshold the container probe's `PeriodSeconds`, `TimeoutSeconds` and
`FailureThreshold` where these are not zero, and the default probe's values where they
are; and a probe is returned whenever the path rule is present. -/
theorem generateHealthProbe_container_timing (c : appGwConfigBuilder)
    (b : backendIdentifier) (service : Service) (k8sProbe : Probe)
    (hs : c.k8sContext.GetService b.serviceKey = some service)
    (hk : getProbeForServiceContainer c service b = some k8sProbe) :
    (b.Path ≠ none → ∃ p, generateHealthProbe c b = Except.ok (some p)) ∧
    ∀ p, generateHealthProbe c b = Except.ok (some p) →
      p.Interval =
        (if k8sProbe.PeriodSeconds ≠ 0 then k8sProbe.PeriodSeconds
          else c.helpers.defaultProbe.Interval) ∧
      p.Timeout =
        (if k8sProbe.TimeoutSeconds ≠ 0 then k8sProbe.TimeoutSeconds
          else c.helpers.defaultProbe.Timeout) ∧
      p.UnhealthyThreshold =
        (if k8sProbe.FailureThreshold ≠ 0 then k8sProbe.FailureThreshold
          else c.helpers.defaultProbe.UnhealthyThreshold) := by
  refine ⟨generateHealthProbe_returns c b service hs, ?_⟩
  intro p h
  obtain ⟨service2, path, hs2, hpath, _⟩ := generateHealthProbe_some c b p h
  rw [hs] at hs2
  cases hs2
  rcases generateHealthProbe_path c b service path hs hpath with
    ⟨hnone, _⟩ | ⟨k, httpGet, hk2, hget, h2⟩
  · rw [hk] at hnone
    cases hnone
  · rw [hk] at hk2
    cases hk2
    rw [h2] at h
    cases h
    rw [mergeContainerProbe_Interval, mergeContainerProbe_Timeout,
      mergeContainerProbe_UnhealthyThreshold, (applyPath_fields c _ b).2.1,
      (applyPath_fields c _ b).2.2.1, (applyPath_fields c _ b).2.2.2.1,
      (applyRuleHost_fields _ b).2.1, (applyRuleHost_fields _ b).2.2.1,
      (applyRuleHost_fields _ b).2.2.2]
    exact ⟨rfl, rfl, rfl⟩

/-- Witness of C11: the readiness probe of the secure pod gives interval 10 and
timeout 5; its failure threshold is zero, so the default threshold 3 stays. -/
theorem generateHealthProbe_container_timing_witness :
    ∃ p, generateHealthProbe secondBuilder backendSecure = Except.ok (some p) ∧
      p.Interval = 10 ∧ p.Timeout = 5 ∧ p.UnhealthyThreshold = 3 := by
  have h := generateHealthProbe_container_timing secondBuilder backendSecure secureService
    { Handler := ⟨some { Path := "/ready", Host := "", Scheme := "HTTPS" }⟩
      TimeoutSeconds := 5, PeriodSeconds := 10, FailureThreshold := 0 }
    (by decide) (by decide)
  obtain ⟨p, hp⟩ := h.1 (by decide)
  obtain ⟨h1, h2, h3⟩ := h.2 p hp
  exact ⟨p, hp, h1, h2, h3⟩

/-- C12: for a backend identifier with an existing service, every probe
`generateHealthProbe` returns has the protocol HTTPS when a container probe is found
whose HTTP-GET scheme is HTTPS, and the default probe's protocol otherwise; and a probe
is returned whenever the path rule is present. -/
theorem generateHealthProbe_protocol (c : appGwConfigBuilder) (b : backendIdentifier)
    (service : Service) (hs : c.k8sContext.GetService b.serviceKey = some service) :
    (b.Path ≠ none → ∃ p, generateHealthProbe c b = Except.ok (some p)) ∧
    ∀ p, generateHealthProbe c b = Except.ok (some p) →
      p.Protocol =
        match (getProbeForServiceContainer c service b).bind
            (fun k8sProbe => k8sProbe.Handler.HTTPGet) with
        | some httpGet =>
          if httpGet.Scheme = URISchemeHTTPS then ApplicationGatewayProtocol.HTTPS
          else c.helpers.defaultProbe.Protocol
        | none => c.helpers.defaultProbe.Protocol := by
  refine ⟨generateHealthProbe_returns c b service hs, ?_⟩
  intro p h
  obtain ⟨service2, path, hs2, hpath, _⟩ := generateHealthProbe_some c b p h
  rw [hs] at hs2
  cases hs2
  rcases generateHealthProbe_path c b service path hs hpath with
    ⟨hk, h2⟩ | ⟨k8sProbe, httpGet, hk, hget, h2⟩
  · rw [h2] at h
    cases h
    rw [hk, (applyPath_fields c _ b).1, (applyRuleHost_fields _ b).1]
    simp only [Option.bind]
  · rw [h2] at h
    cases h
    rw [hk, mergeContainerProbe_Protocol,
      (applyPath_fields c _ b).1, (applyRuleHost_fields _ b).1]
    simp only [Option.bind, hget]

/-- Witness of C12: the readiness probe of the secure pod has scheme HTTPS, that of the
sample pod has scheme HTTP. -/
theorem generateHealthProbe_protocol_witness :
    (∃ p, generateHealthProbe secondBuilder backendSecure = Except.ok (some p) ∧
      p.Protocol = ApplicationGatewayProtocol.HTTPS) ∧
    (∃ p, generateHealthProbe sampleBuilder backendA = Except.ok (some p) ∧
      p.Protocol = ApplicationGatewayProtocol.HTTP) := by
  have h1 := generateHealthProbe_protocol secondBuilder backendSecure secureService
    (by decide)
  have h2 := generateHealthProbe_protocol sampleBuilder backendA sampleService (by decide)
  obtain ⟨p1, hp1⟩ := h1.1 (by decide)
  obtain ⟨p2, hp2⟩ := h2.1 (by decide)
  refine ⟨⟨p1, hp1, ?_⟩, ⟨p2, hp2, ?_⟩⟩
  · rw [h1.2 p1 hp1]
    decide
  · rw [h2.2 p2 hp2]
    decide

/-- C13: the sample ingress listens on ports 80 and 443; when `range` visits the port
set with 443 first, `getFrontendPorts` returns the entry of port 443 before that of
port 80, so the returned list is not in ascending order of port value. -/
theorem getFrontendPorts_unsorted :
    (getFrontendPorts sampleBuilder (RangeOrder.stored Int) (RangeOrder.reversed Int)
      [tlsIngress]).map (fun fp => fp.Port) = [443, 80] ∧
    ¬ List.Sorted (fun x y : Int => x ≤ y)
      ((getFrontendPorts sampleBuilder (RangeOrder.stored Int) (RangeOrder.reversed Int)
        [tlsIngress]).map (fun fp => fp.Port)) := by
  have h : (getFrontendPorts sampleBuilder (RangeOrder.stored Int) (RangeOrder.reversed Int)
      [tlsIngress]).map (fun fp => fp.Port) = [443, 80] := by decide
  refine ⟨h, ?_⟩
  rw [h]
  decide

/-! ## Facts about the search for a container probe -/

theorem chooseProbe_readiness (container : Container) (r : Probe) (g : HTTPGetAction)
    (hr : container.ReadinessProbe = some r) (hg : r.Handler.HTTPGet = some g) :
    chooseProbe container = some r := by
  simp [chooseProbe, hr, hg]

theorem livenessChoice_liveness (container : Container) (l : Probe) (g : HTTPGetAction)
    (hl : container.LivenessProbe = some l) (hg : l.Handler.HTTPGet = some g) :
    livenessChoice container = some l := by
  simp [livenessChoice, hl, hg]

theorem chooseProbe_liveness (container : Container) (l : Probe) (g : HTTPGetAction)
    (hr : ∀ r, container.ReadinessProbe = some r → r.Handler.HTTPGet = none)
    (hl : container.LivenessProbe = some l) (hg : l.Handler.HTTPGet = some g) :
    chooseProbe container = some l := by
  have h := livenessChoice_liveness container l g hl hg
  cases hrp : container.ReadinessProbe with
  | none => simp [chooseProbe, hrp, h]
  | some r => simp [chooseProbe, hrp, hr r hrp, h]

theorem chooseProbe_none (container : Container)
    (hr : ∀ r, container.ReadinessProbe = some r → r.Handler.HTTPGet = none)
    (hl : ∀ l, container.LivenessProbe = some l → l.Handler.HTTPGet = none) :
    chooseProbe container = none := by
  have h : livenessChoice container = none := by
    cases hlp : container.LivenessProbe with
    | none => simp [livenessChoice, hlp]
    | some l => simp [livenessChoice, hlp, hl l hlp]
  cases hrp : container.ReadinessProbe with
  | none => simp [chooseProbe, hrp, h]
  | some r => simp [chooseProbe, hrp, hr r hrp, h]

theorem scanPorts_eq_none (allPorts : List Int) (container : Container)
    (ports : List ContainerPort)
    (h : ∀ port ∈ ports, port.ContainerPort ∉ allPorts) :
    scanPorts allPorts container ports = none := by
  induction ports with
  | nil => rfl
  | cons port rest ih =>
    have h1 := h port (List.mem_cons_self _ _)
    have h2 := ih (fun q hq => h q (List.mem_cons_of_mem _ hq))
    simp [scanPorts, h1, h2]

theorem scanPorts_eq_some (allPorts : List Int) (container : Container)
    (ports : List ContainerPort)
    (h : ∃ port ∈ ports, port.ContainerPort ∈ allPorts) :
    scanPorts allPorts container ports = some (chooseProbe container) := by
  induction ports with
  | nil =>
    obtain ⟨port, hp, _⟩ := h
    simp at hp
  | cons port rest ih =>
    by_cases h1 : port.ContainerPort ∈ allPorts
    · simp [scanPorts, h1]
    · have h2 : ∃ q ∈ rest, q.ContainerPort ∈ allPorts := by
        obtain ⟨q, hq, hq2⟩ := h
        rcases List.mem_cons.mp hq with e | e
        · subst e
          exact absurd hq2 h1
        · exact ⟨q, e, hq2⟩
      simp [scanPorts, h1, ih h2]

theorem scanContainers_skip (allPorts : List Int) (pre rest : List Container)
    (h : ∀ container ∈ pre, ∀ port ∈ container.Ports, port.ContainerPort ∉ allPorts) :
    scanContainers allPorts (pre ++ rest) = scanContainers allPorts rest := by
  induction pre with
  | nil => rfl
  | cons container more ih =>
    have h1 := scanPorts_eq_none allPorts container container.Ports
      (h container (List.mem_cons_self _ _))
    have h2 := ih (fun q hq => h q (List.mem_cons_of_mem _ hq))
    simp [scanContainers, h1, h2]

theorem scanContainers_eq_none (allPorts : List Int) (containers : List Container)
    (h : ∀ container ∈ containers, ∀ port ∈ container.Ports,
      port.ContainerPort ∉ allPorts) :
    scanContainers allPorts containers = none := by
  have h2 := scanContainers_skip allPorts containers [] h
  rw [List.append_nil] at h2
  rw [h2]
  rfl

theorem scanPods_skip (allPorts : List Int) (pre rest : List Pod)
    (h : ∀ pod ∈ pre, ∀ container ∈ pod.Containers, ∀ port ∈ container.Ports,
      port.ContainerPort ∉ allPorts) :
    scanPods allPorts (pre ++ rest) = scanPods allPorts rest := by
  induction pre with
  | nil => rfl
  | cons pod more ih =>
    have h1 := scanContainers_eq_none allPorts pod.Containers
      (h pod (List.mem_cons_self _ _))
    have h2 := ih (fun q hq => h q (List.mem_cons_of_mem _ hq))
    simp [scanPods, h1, h2]

theorem scanPods_eq_none (allPorts : List Int) (pods : List Pod)
    (h : ∀ pod ∈ pods, ∀ container ∈ pod.Containers, ∀ port ∈ container.Ports,
      port.ContainerPort ∉ allPorts) :
    scanPods allPorts pods = none := by
  have h2 := scanPods_skip allPorts pods [] h
  rw [List.append_nil] at h2
  rw [h2]
  rfl

/-- The search stops at the first container, pods in listed order and containers in
declared order, that declares a port of the target-port set, and returns what
`chooseProbe` gives for that container. -/
theorem getProbeForServiceContainer_stops_at_first (c : appGwConfigBuilder) (service : Service)
    (b : backendIdentifier) (prePods postPods : List Pod) (pod : Pod)
    (preContainers postContainers : List Container) (container : Container)
    (hpods : c.k8sContext.GetPodsByServiceSelector service.Selector =
      prePods ++ pod :: postPods)
    (hcontainers : pod.Containers = preContainers ++ container :: postContainers)
    (hprePods : ∀ q ∈ prePods, ∀ ct ∈ q.Containers, ∀ port ∈ ct.Ports,
      port.ContainerPort ∉ resolveTargetPorts c b service.Ports [])
    (hpreContainers : ∀ ct ∈ preContainers, ∀ port ∈ ct.Ports,
      port.ContainerPort ∉ resolveTargetPorts c b service.Ports [])
    (hdeclares : ∃ port ∈ container.Ports,
      port.ContainerPort ∈ resolveTargetPorts c b service.Ports []) :
    getProbeForServiceContainer c service b = chooseProbe container := by
  have h1 : scanContainers (resolveTargetPorts c b service.Ports []) pod.Containers =
      some (chooseProbe container) := by
    rw [hcontainers, scanContainers_skip _ _ _ hpreContainers]
    simp [scanContainers, scanPorts_eq_some _ container container.Ports hdeclares]
  have h2 : scanPods (resolveTargetPorts c b service.Ports [])
      (c.k8sContext.GetPodsByServiceSelector service.Selector) =
      some (chooseProbe container) := by
    rw [hpods, scanPods_skip _ _ _ hprePods]
    simp [scanPods, h1]
  simp only [getProbeForServiceContainer, h2]

/-! ## Theorems on `getProbeForServiceContainer` -/

/-- C14, counterexample: the service `svc1` selects an old pod and the sample pod. The
container of the sample pod declares port 8080 of the target-port set and has a
readiness probe with an HTTP-GET handler, yet `getProbeForServiceContainer` returns
nothing, because the container of the old pod declares port 8080 as well and has no
probe with an HTTP-GET handler. -/
theorem getProbeForServiceContainer_later_container :
    (∃ pod ∈ secondBuilder.k8sContext.GetPodsByServiceSelector sampleService.Selector,
      ∃ container ∈ pod.Containers,
        (∃ port ∈ container.Ports, port.ContainerPort ∈
          resolveTargetPorts secondBuilder backendA sampleService.Ports []) ∧
        ∃ r g, container.ReadinessProbe = some r ∧ r.Handler.HTTPGet = some g) ∧
    getProbeForServiceContainer secondBuilder sampleService backendA = none := by
  refine ⟨⟨samplePod, by decide, _, List.mem_cons_self _ _,
    ⟨_, List.mem_cons_self _ _, by decide⟩, _, _, rfl, rfl⟩, by decide⟩

/-- C14, amended: when the first container that declares a port of the target-port set
has a readiness or liveness probe with an HTTP-GET handler,
`getProbeForServiceContainer` returns a probe, one of the two probes of that container;
when it has none, nothing is returned, whatever later containers declare. -/
theorem getProbeForServiceContainer_first_container (c : appGwConfigBuilder)
    (service : Service) (b : backendIdentifier) (prePods postPods : List Pod) (pod : Pod)
    (preContainers postContainers : List Container) (container : Container)
    (hpods : c.k8sContext.GetPodsByServiceSelector service.Selector =
      prePods ++ pod :: postPods)
    (hcontainers : pod.Containers = preContainers ++ container :: postContainers)
    (hprePods : ∀ q ∈ prePods, ∀ ct ∈ q.Containers, ∀ port ∈ ct.Ports,
      port.ContainerPort ∉ resolveTargetPorts c b service.Ports [])
    (hpreContainers : ∀ ct ∈ preContainers, ∀ port ∈ ct.Ports,
      port.ContainerPort ∉ resolveTargetPorts c b service.Ports [])
    (hdeclares : ∃ port ∈ container.Ports,
      port.ContainerPort ∈ resolveTargetPorts c b service.Ports []) :
    (((∃ r g, container.ReadinessProbe = some r ∧ r.Handler.HTTPGet = some g) ∨
        (∃ l g, container.LivenessProbe = some l ∧ l.Handler.HTTPGet = some g)) →
      ∃ p, getProbeForServiceContainer c service b = some p ∧
        (container.ReadinessProbe = some p ∨ container.LivenessProbe = some p) ∧
        p.Handler.HTTPGet ≠ none) ∧
    (((∀ r, container.ReadinessProbe = some r → r.Handler.HTTPGet = none) ∧
        (∀ l, container.LivenessProbe = some l → l.Handler.HTTPGet = none)) →
      getProbeForServiceContainer c service b = none) := by
  have hfirst := getProbeForServiceContainer_stops_at_first c service b prePods postPods pod
    preContainers postContainers container hpods hcontainers hprePods hpreContainers
    hdeclares
  rw [hfirst]
  constructor
  · rintro (⟨r, g, hr, hg⟩ | ⟨l, g, hl, hg⟩)
    · refine ⟨r, chooseProbe_readiness container r g hr hg, Or.inl hr, ?_⟩
      rw [hg]
      simp
    · by_cases hread : ∃ r g, container.ReadinessProbe = some r ∧ r.Handler.HTTPGet = some g
      · obtain ⟨r, g2, hr, hg2⟩ := hread
        refine ⟨r, chooseProbe_readiness container r g2 hr hg2, Or.inl hr, ?_⟩
        rw [hg2]
        simp
      · have hnone : ∀ r, container.ReadinessProbe = some r → r.Handler.HTTPGet = none := by
          intro r hr
          cases hget : r.Handler.HTTPGet with
          | none => rfl
          | some g2 => exact absurd ⟨r, g2, hr, hget⟩ hread
        refine ⟨l, chooseProbe_liveness container l g hnone hl hg, Or.inr hl, ?_⟩
        rw [hg]
        simp
  · rintro ⟨hr, hl⟩
    exact chooseProbe_none container hr hl

/-- Witness of C14, amended: in the sample cluster the only container declares port
8080 and has a readiness probe with an HTTP-GET handler. -/
theorem getProbeForServiceContainer_first_container_witness :
    ∃ p, getProbeForServiceContainer sampleBuilder sampleService backendA = some p ∧
      p.Handler.HTTPGet ≠ none := by
  have h := getProbeForServiceContainer_first_container sampleBuilder sampleService backendA
    [] [] samplePod [] []
    { Name := "web", Ports := [{ Name := "http", ContainerPort := 8080 }]
      LivenessProbe := none
      ReadinessProbe := some
        { Handler := ⟨some { Path := "/healthz", Host := "", Scheme := "HTTP" }⟩
          TimeoutSeconds := 0, PeriodSeconds := 15, FailureThreshold := 0 } }
    (by decide) (by decide) (by decide) (by decide) (by decide)
  obtain ⟨p, hp, _, hg⟩ := h.1 (Or.inl ⟨_, _, rfl, rfl⟩)
  exact ⟨p, hp, hg⟩

/-- C15: for the first container that declares a port of the target-port set, pods in
listed order and containers in declared order, `getProbeForServiceContainer` returns
the readiness probe when it has an HTTP-GET handler, whatever the liveness probe is,
and otherwise the liveness probe when that has an HTTP-GET handler. -/
theorem getProbeForServiceContainer_readiness_first (c : appGwConfigBuilder)
    (service : Service) (b : backendIdentifier) (prePods postPods : List Pod) (pod : Pod)
    (preContainers postContainers : List Container) (container : Container)
    (hpods : c.k8sContext.GetPodsByServiceSelector service.Selector =
      prePods ++ pod :: postPods)
    (hcontainers : pod.Containers = preContainers ++ container :: postContainers)
    (hprePods : ∀ q ∈ prePods, ∀ ct ∈ q.Containers, ∀ port ∈ ct.Ports,
      port.ContainerPort ∉ resolveTargetPorts c b service.Ports [])
    (hpreContainers : ∀ ct ∈ preContainers, ∀ port ∈ ct.Ports,
      port.ContainerPort ∉ resolveTargetPorts c b service.Ports [])
    (hdeclares : ∃ port ∈ container.Ports,
      port.ContainerPort ∈ resolveTargetPorts c b service.Ports []) :
    (∀ r g, container.ReadinessProbe = some r → r.Handler.HTTPGet = some g →
      getProbeForServiceContainer c service b = some r) ∧
    (∀ l g, (∀ r, container.ReadinessProbe = some r → r.Handler.HTTPGet = none) →
      container.LivenessProbe = some l → l.Handler.HTTPGet = some g →
      getProbeForServiceContainer c service b = some l) := by
  have hfirst := getProbeForServiceContainer_stops_at_first c service b prePods postPods pod
    preContainers postContainers container hpods hcontainers hprePods hpreContainers
    hdeclares
  rw [hfirst]
  exact ⟨fun r g hr hg => chooseProbe_readiness container r g hr hg,
    fun l g hnone hl hg => chooseProbe_liveness container l g hnone hl hg⟩

/-- Witness of C15: the container of the secure pod has both probes with an HTTP-GET
handler, and the readiness probe is returned. -/
theorem getProbeForServiceContainer_readiness_first_witness :
    getProbeForServiceContainer secondBuilder secureService backendSecure =
      some { Handler := ⟨some { Path := "/ready", Host := "", Scheme := "HTTPS" }⟩
             TimeoutSeconds := 5, PeriodSeconds := 10, FailureThreshold := 0 } :=
  (getProbeForServiceContainer_readiness_first secondBuilder secureService backendSecure
    [] [] securePod [] []
    { Name := "secure", Ports := [{ Name := "https", ContainerPort := 8443 }]
      LivenessProbe := some
        { Handler := ⟨some { Path := "/live", Host := "", Scheme := "HTTP" }⟩
          TimeoutSeconds := 0, PeriodSeconds := 0, FailureThreshold := 0 }
      ReadinessProbe := some
        { Handler := ⟨some { Path := "/ready", Host := "", Scheme := "HTTPS" }⟩
          TimeoutSeconds := 5, PeriodSeconds := 10, FailureThreshold := 0 } }
    (by decide) (by decide) (by decide) (by decide) (by decide)).1 _ _ rfl rfl

/-! ## Facts about the target-port set -/

theorem mem_addTargetPorts (c : appGwConfigBuilder) (b : backendIdentifier)
    (sp : ServicePort) (acc : List Int) (x : Int) :
    x ∈ addTargetPorts c b sp acc ↔ x ∈ acc ∨ x ∈ addTargetPorts c b sp [] := by
  unfold addTargetPorts
  split
  · simp [mem_setAdd]
  · split
    · simp [mem_setAdd]
    · rw [mem_foldl_setAdd, mem_foldl_setAdd]
      simp

/-- The target-port set holds the ports that were in it before and the target ports of
every TCP port of the service that matches the backend's service port specifier. -/
theorem mem_resolveTargetPorts (c : appGwConfigBuilder) (b : backendIdentifier)
    (ports : List ServicePort) (acc : List Int) (x : Int) :
    x ∈ resolveTargetPorts c b ports acc ↔
      x ∈ acc ∨ ∃ sp ∈ ports, sp.Protocol = ProtocolTCP ∧ servicePortMatches sp b = true ∧
        x ∈ addTargetPorts c b sp [] := by
  induction ports generalizing acc with
  | nil => simp [resolveTargetPorts]
  | cons sp rest ih =>
    unfold resolveTargetPorts
    by_cases hproto : sp.Protocol = ProtocolTCP
    · by_cases hmatch : servicePortMatches sp b = true
      · simp only [hproto, ne_eq, not_true_eq_false, if_false, hmatch, if_true]
        rw [ih, mem_addTargetPorts]
        simp only [List.mem_cons, exists_eq_or_imp, hproto, hmatch, true_and]
        tauto
      · have hm : servicePortMatches sp b = false := by simpa using hmatch
        simp only [hproto, ne_eq, not_true_eq_false, if_false, hm, Bool.false_eq_true]
        rw [ih]
        simp only [List.mem_cons, exists_eq_or_imp, hm, Bool.false_eq_true, false_and,
          and_false, false_or]
    · simp only [ne_eq, hproto, not_false_eq_true, if_true]
      rw [ih]
      simp only [List.mem_cons, exists_eq_or_imp, hproto, false_and, false_or]

theorem servicePortMatches_eq_false (sp : ServicePort) (b : backendIdentifier)
    (h1 : toString sp.Port ≠ b.Backend.ServicePort.String)
    (h2 : sp.Name ≠ b.Backend.ServicePort.String)
    (h3 : sp.TargetPort.String ≠ b.Backend.ServicePort.String) :
    servicePortMatches sp b = false := by
  simp [servicePortMatches, h1, h2, h3]

/-- With no matching TCP port the target-port set is empty. -/
theorem resolveTargetPorts_eq_nil (c : appGwConfigBuilder) (b : backendIdentifier)
    (ports : List ServicePort)
    (h : ∀ sp ∈ ports, sp.Protocol = ProtocolTCP → servicePortMatches sp b = false) :
    resolveTargetPorts c b ports [] = [] := by
  apply List.eq_nil_iff_forall_not_mem.mpr
  intro x hx
  rw [mem_resolveTargetPorts] at hx
  rcases hx with hx | ⟨sp, hsp, hproto, hmatch, _⟩
  · simp at hx
  · rw [h sp hsp hproto] at hmatch
    cases hmatch

theorem getProbeForServiceContainer_eq_none (c : appGwConfigBuilder) (service : Service)
    (b : backendIdentifier)
    (h : resolveTargetPorts c b service.Ports [] = []) :
    getProbeForServiceContainer c service b = none := by
  have hs : scanPods (resolveTargetPorts c b service.Ports [])
      (c.k8sContext.GetPodsByServiceSelector service.Selector) = none := by
    apply scanPods_eq_none
    intro pod _ container _ port _
    rw [h]
    simp
  simp only [getProbeForServiceContainer, hs]

/-- C16: when no TCP port of the service matches the backend's service port specifier
by port number, port name or target-port text, `getProbeForServiceContainer` returns
nothing in every cluster, and every probe `generateHealthProbe` returns has the default
probe's protocol, interval, timeout and unhealthy threshold, the host of the rule when
it has one, and the path of the annotation or of the path rule when there is one; a
probe is returned whenever the path rule is present. -/
theorem generateHealthProbe_no_port_match (c : appGwConfigBuilder) (b : backendIdentifier)
    (service : Service) (hs : c.k8sContext.GetService b.serviceKey = some service)
    (hno : ∀ sp ∈ service.Ports, sp.Protocol = ProtocolTCP →
      toString sp.Port ≠ b.Backend.ServicePort.String ∧
      sp.Name ≠ b.Backend.ServicePort.String ∧
      sp.TargetPort.String ≠ b.Backend.ServicePort.String) :
    (∀ k : k8sContext,
      getProbeForServiceContainer { k8sContext := k, helpers := c.helpers } service b =
        none) ∧
    (b.Path ≠ none → ∃ p, generateHealthProbe c b = Except.ok (some p)) ∧
    ∀ p, generateHealthProbe c b = Except.ok (some p) →
      p.Protocol = c.helpers.defaultProbe.Protocol ∧
      p.Interval = c.helpers.defaultProbe.Interval ∧
      p.Timeout = c.helpers.defaultProbe.Timeout ∧
      p.UnhealthyThreshold = c.helpers.defaultProbe.UnhealthyThreshold ∧
      p.Host =
        (match b.Rule with
          | some rule => if rule.Host ≠ "" then rule.Host else c.helpers.defaultProbe.Host
          | none => c.helpers.defaultProbe.Host) ∧
      p.Path =
        (match c.helpers.BackendPathPrefix b.Ingress with
          | some pathPrefix => pathPrefix
          | none =>
            match b.Path with
            | some path =>
              if path.Path ≠ "" then path.Path else c.helpers.defaultProbe.Path
            | none => c.helpers.defaultProbe.Path) := by
  have hfalse : ∀ sp ∈ service.Ports, sp.Protocol = ProtocolTCP →
      servicePortMatches sp b = false := by
    intro sp hsp hproto
    obtain ⟨h1, h2, h3⟩ := hno sp hsp hproto
    exact servicePortMatches_eq_false sp b h1 h2 h3
  have hnone : ∀ k : k8sContext,
      getProbeForServiceContainer { k8sContext := k, helpers := c.helpers } service b =
        none := by
    intro k
    exact getProbeForServiceContainer_eq_none _ service b
      (resolveTargetPorts_eq_nil _ b service.Ports hfalse)
  refine ⟨hnone, generateHealthProbe_returns c b service hs, ?_⟩
  intro p h
  have hk : getProbeForServiceContainer c service b = none :=
    getProbeForServiceContainer_eq_none c service b
      (resolveTargetPorts_eq_nil c b service.Ports hfalse)
  obtain ⟨service2, path, hs2, hpath, _⟩ := generateHealthProbe_some c b p h
  rw [hs] at hs2
  cases hs2
  rcases generateHealthProbe_path c b service path hs hpath with
    ⟨_, h2⟩ | ⟨k8sProbe, _, hk2, _, _⟩
  · rw [h2] at h
    cases h
    refine ⟨?_, ?_, ?_, ?_, ?_, ?_⟩
    · rw [(applyPath_fields c _ b).1, (applyRuleHost_fields _ b).1]
    · rw [(applyPath_fields c _ b).2.1, (applyRuleHost_fields _ b).2.1]
    · rw [(applyPath_fields c _ b).2.2.1, (applyRuleHost_fields _ b).2.2.1]
    · rw [(applyPath_fields c _ b).2.2.2.1, (applyRuleHost_fields _ b).2.2.2]
    · rw [(applyPath_fields c _ b).2.2.2.2, applyRuleHost_Host]
    · rw [applyPath_Path, applyRuleHost_Path]
  · rw [hk] at hk2
    cases hk2

/-- Witness of C16: the service `svc1` has no port 9999, so the probe keeps the default
values and takes the host of the rule and the path of the path rule. -/
theorem generateHealthProbe_no_port_match_witness :
    getProbeForServiceContainer sampleBuilder sampleService backendOther = none ∧
    generateHealthProbe sampleBuilder backendOther =
      Except.ok (some { sampleDefaultProbe with
        Name := ".s.v.c.1-.9.9.9.9-.w.e.b-", Host := "a.example.com", Path := "/other" }) := by
  have h := generateHealthProbe_no_port_match sampleBuilder backendOther sampleService
    (by decide) (by decide)
  exact ⟨h.1 sampleContext, by decide⟩

theorem servicePortMatches_iff (sp : ServicePort) (b : backendIdentifier) :
    servicePortMatches sp b = true ↔
      (toString sp.Port = b.Backend.ServicePort.String ∨
        sp.Name = b.Backend.ServicePort.String ∨
        sp.TargetPort.String = b.Backend.ServicePort.String) := by
  simp [servicePortMatches, or_assoc]

theorem toDigitsCore_ne_nil (base fuel n : Nat) (ds : List Char) (h : ds ≠ []) :
    Nat.toDigitsCore base fuel n ds ≠ [] := by
  induction fuel generalizing n ds with
  | zero => simpa [Nat.toDigitsCore] using h
  | succ f ih =>
    simp only [Nat.toDigitsCore]
    split
    · simp
    · exact ih _ _ (by simp)

theorem toDigits_ne_nil (base n : Nat) : Nat.toDigits base n ≠ [] := by
  simp only [Nat.toDigits, Nat.toDigitsCore]
  split
  · simp
  · exact toDigitsCore_ne_nil _ _ _ _ (by simp)

theorem toString_nat_ne_empty (n : Nat) : toString n ≠ "" := by
  intro h
  have h2 := congrArg String.data h
  simp only [toString, Nat.repr, List.asString] at h2
  exact toDigits_ne_nil 10 n h2

/-- The decimal text of an integer is not empty. -/
theorem toString_int_ne_empty (n : Int) : toString n ≠ "" := by
  cases n with
  | ofNat m => exact toString_nat_ne_empty m
  | negSucc m =>
    intro h
    have h2 := congrArg String.data h
    simp [toString, instToStringInt] at h2

/-- The text of a numeric `IntOrString` is not empty. -/
theorem IntOrString_String_ne_empty (x : IntOrString) (h : x.Typ = IntstrType.Int) :
    x.String ≠ "" := by
  simp only [IntOrString.String, h]
  exact toString_int_ne_empty x.IntVal

/-- The step of the loop of lines 108-129 for a TCP port that matches. -/
theorem resolveTargetPorts_cons_match (c : appGwConfigBuilder) (b : backendIdentifier)
    (sp : ServicePort) (rest : List ServicePort) (allPorts : List Int)
    (htcp : sp.Protocol = ProtocolTCP) (hmatch : servicePortMatches sp b = true) :
    resolveTargetPorts c b (sp :: rest) allPorts =
      resolveTargetPorts c b rest (addTargetPorts c b sp allPorts) := by
  simp [resolveTargetPorts, htcp, hmatch]

/-- C17: the port 80 of the service `plain` is given no target port, so its target
port is the zero value of `IntOrString`, which is numeric and has the text `0`. The
port matches the backend `plain:80` and contributes the target port 0, not its own
port number 80, and the container that serves port 80 and has an HTTP-GET readiness
probe is not found. -/
theorem resolveTargetPorts_zero_target_port :
    plainService.Ports =
      [{ Name := "http", Protocol := ProtocolTCP, Port := 80,
         TargetPort := zeroTargetPort }] ∧
    zeroTargetPort.String = "0" ∧
    resolveTargetPorts secondBuilder backendPlain plainService.Ports [] = [0] ∧
    secondBuilder.k8sContext.GetPodsByServiceSelector plainService.Selector = [plainPod] ∧
    getProbeForServiceContainer secondBuilder plainService backendPlain = none := by
  refine ⟨?_, ?_, ?_, ?_, ?_⟩ <;> decide

/-- The two branches of lines 118-122: a TCP port that matches the backend's service
port specifier adds to the target-port set its own port number when the text of its
target port is empty, and the numeric value of its target port when the target port is
numeric, the zero value included; the added port is in the final set. -/
theorem resolveTargetPorts_contribution (c : appGwConfigBuilder) (b : backendIdentifier)
    (sp : ServicePort) (rest : List ServicePort) (allPorts : List Int)
    (htcp : sp.Protocol = ProtocolTCP)
    (hmatch : toString sp.Port = b.Backend.ServicePort.String ∨
      sp.Name = b.Backend.ServicePort.String ∨
      sp.TargetPort.String = b.Backend.ServicePort.String) :
    (sp.TargetPort.String = "" →
      resolveTargetPorts c b (sp :: rest) allPorts =
        resolveTargetPorts c b rest (setAdd allPorts sp.Port) ∧
      sp.Port ∈ resolveTargetPorts c b (sp :: rest) allPorts) ∧
    (sp.TargetPort.Typ = IntstrType.Int →
      resolveTargetPorts c b (sp :: rest) allPorts =
        resolveTargetPorts c b rest (setAdd allPorts sp.TargetPort.IntVal) ∧
      sp.TargetPort.IntVal ∈ resolveTargetPorts c b (sp :: rest) allPorts) := by
  have hm := (servicePortMatches_iff sp b).mpr hmatch
  have hstep := resolveTargetPorts_cons_match c b sp rest allPorts htcp hm
  constructor
  · intro hempty
    have hadd : addTargetPorts c b sp allPorts = setAdd allPorts sp.Port := by
      simp [addTargetPorts, hempty]
    rw [hstep, hadd]
    refine ⟨rfl, ?_⟩
    rw [mem_resolveTargetPorts]
    exact Or.inl ((mem_setAdd allPorts sp.Port sp.Port).mpr (Or.inr rfl))
  · intro hint
    have hne := IntOrString_String_ne_empty sp.TargetPort hint
    have hadd : addTargetPorts c b sp allPorts = setAdd allPorts sp.TargetPort.IntVal := by
      simp [addTargetPorts, hne, hint]
    rw [hstep, hadd]
    refine ⟨rfl, ?_⟩
    rw [mem_resolveTargetPorts]
    exact Or.inl ((mem_setAdd allPorts _ _).mpr (Or.inr rfl))

/-- A port 80 with an empty target-port text contributes 80, and the port 80 of the
sample service, with the numeric target port 8080, contributes 8080. -/
theorem resolveTargetPorts_contribution_sample :
    resolveTargetPorts sampleBuilder backendA
      [{ Name := "http", Protocol := ProtocolTCP, Port := 80, TargetPort := namedPort "" }]
      [] = [80] ∧
    resolveTargetPorts sampleBuilder backendA sampleService.Ports [] = [8080] := by
  have h1 := (resolveTargetPorts_contribution sampleBuilder backendA
    { Name := "http", Protocol := ProtocolTCP, Port := 80, TargetPort := namedPort "" }
    [] [] rfl (Or.inl (by decide))).1 (by decide)
  have h2 := (resolveTargetPorts_contribution sampleBuilder backendA
    { Name := "http", Protocol := "TCP", Port := 80, TargetPort := intPort 8080 }
    [] [] rfl (Or.inl (by decide))).2 rfl
  exact ⟨h1.1.trans (by decide), h2.1.trans (by decide)⟩

/-- C18, counterexample: both TCP ports of the service match the backend `svc1:80`, the
first by its port number and the second by its target-port text. The first match
gives the target port 8080, yet the target-port set holds 80 as well, the target port
of the second match. -/
theorem resolveTargetPorts_second_match :
    twoPortService.Ports =
      [{ Name := "http", Protocol := ProtocolTCP, Port := 80, TargetPort := intPort 8080 },
       { Name := "admin", Protocol := ProtocolTCP, Port := 8080, TargetPort := intPort 80 }] ∧
    servicePortMatches
      { Name := "http", Protocol := ProtocolTCP, Port := 80, TargetPort := intPort 8080 }
      backendA = true ∧
    servicePortMatches
      { Name := "admin", Protocol := ProtocolTCP, Port := 8080, TargetPort := intPort 80 }
      backendA = true ∧
    addTargetPorts sampleBuilder backendA
      { Name := "http", Protocol := ProtocolTCP, Port := 80, TargetPort := intPort 8080 }
      [] = [8080] ∧
    resolveTargetPorts sampleBuilder backendA twoPortService.Ports [] = [8080, 80] := by
  refine ⟨by decide, by decide, by decide, by decide, by decide⟩

/-- C18, amended: a port is in the target-port set exactly when it is a target port
derived from some TCP port of the service that matches the backend's service port
specifier by port number, port name or target-port text; every match counts, not
only the first. -/
theorem resolveTargetPorts_all_matches (c : appGwConfigBuilder) (b : backendIdentifier)
    (service : Service) (x : Int) :
    x ∈ resolveTargetPorts c b service.Ports [] ↔
      ∃ sp ∈ service.Ports, sp.Protocol = ProtocolTCP ∧
        (toString sp.Port = b.Backend.ServicePort.String ∨
          sp.Name = b.Backend.ServicePort.String ∨
          sp.TargetPort.String = b.Backend.ServicePort.String) ∧
        x ∈ addTargetPorts c b sp [] := by
  rw [mem_resolveTargetPorts]
  simp only [List.not_mem_nil, false_or, servicePortMatches_iff]

/-- C19: every probe `getProbeForServiceContainer` returns has an HTTP-GET handler, and
so `generateHealthProbe` returns a probe, without a fault at the reads of the handler,
for every backend identifier with an existing service and a present path rule. -/
theorem getProbeForServiceContainer_handler_present (c : appGwConfigBuilder)
    (service : Service) (b : backendIdentifier) :
    (∀ p, getProbeForServiceContainer c service b = some p →
      ∃ httpGet, p.Handler.HTTPGet = some httpGet) ∧
    (c.k8sContext.GetService b.serviceKey = some service → b.Path ≠ none →
      ∃ p, generateHealthProbe c b = Except.ok (some p)) := by
  constructor
  · intro p hp
    have h := getProbeForServiceContainer_HTTPGet c service b p hp
    cases hget : p.Handler.HTTPGet with
    | none => exact absurd hget h
    | some httpGet => exact ⟨httpGet, rfl⟩
  · intro hs hpath
    exact generateHealthProbe_returns c b service hs hpath

/-- Witness of C19: the probe found in the sample cluster has an HTTP-GET handler and
`generateHealthProbe` returns a probe. -/
theorem getProbeForServiceContainer_handler_present_witness :
    (∃ p httpGet, getProbeForServiceContainer sampleBuilder sampleService backendA = some p ∧
      p.Handler.HTTPGet = some httpGet) ∧
    ∃ p, generateHealthProbe sampleBuilder backendA = Except.ok (some p) := by
  have h := getProbeForServiceContainer_handler_present sampleBuilder sampleService backendA
  have hp : getProbeForServiceContainer sampleBuilder sampleService backendA =
      some { Handler := ⟨some { Path := "/healthz", Host := "", Scheme := "HTTP" }⟩
             TimeoutSeconds := 0, PeriodSeconds := 15, FailureThreshold := 0 } := by
    decide
  obtain ⟨httpGet, hg⟩ := h.1 _ hp
  exact ⟨⟨_, httpGet, hp, hg⟩, h.2 (by decide) (by decide)⟩

/-- C20: whenever `newProbesMap` returns, the name of every probe in the
backend-to-probe map is a key of the name-to-probe collection, and the probe list
`HealthProbesCollection` commits for the same visiting order of the backend
identifiers has a probe of that name. `newProbesMap` returns whenever no backend
identifier of the list has an existing service and an absent path. -/
theorem newProbesMap_names_resolve (c : appGwConfigBuilder)
    (roIDs : RangeOrder backendIdentifier)
    (roProbes : RangeOrder (String × ApplicationGatewayProbe))
    (ingressList : List Ingress) :
    ((∀ b ∈ c.helpers.newBackendIds ingressList,
        c.k8sContext.GetService b.serviceKey ≠ none → b.Path ≠ none) →
      ∃ maps, newProbesMap c roIDs ingressList = Except.ok maps) ∧
    ∀ maps, newProbesMap c roIDs ingressList = Except.ok maps →
      (∀ e ∈ maps.2, e.2.Name ∈ mapKeys maps.1) ∧
      ∀ r, HealthProbesCollection c roIDs roProbes ingressList = Except.ok r →
        ∀ e ∈ maps.2, ∃ q ∈ r.1, q.Name = e.2.Name := by
  refine ⟨newProbesMap_ok c roIDs ingressList, ?_⟩
  intro maps hm
  have hkeys : ∀ e ∈ maps.2, e.2.Name ∈ mapKeys maps.1 := by
    have hm2 := hm
    unfold newProbesMap at hm2
    have hinv := newProbesMapLoop_invariant c
      (fun m => c.helpers.defaultProbe.Name ∈ mapKeys m.1 ∧
        ∀ e ∈ m.2, e.2.Name ∈ mapKeys m.1) _ _ maps ?_ ?_ ?_ hm2
    · exact hinv.2
    · intro b _ p hpc pm _ hinv
      refine ⟨(mem_mapKeys_mapSet hpc p.Name _ p).mpr (Or.inl hinv.1), ?_⟩
      intro e he
      rcases mem_mapSet pm b p e he with h1 | h1
      · rw [h1]
        exact (mem_mapKeys_mapSet hpc p.Name _ p).mpr (Or.inr rfl)
      · exact (mem_mapKeys_mapSet hpc p.Name _ p).mpr (Or.inl (hinv.2 e h1))
    · intro b _ hpc pm _ hinv
      refine ⟨hinv.1, ?_⟩
      intro e he
      rcases mem_mapSet pm b _ e he with h1 | h1
      · rw [h1]
        exact hinv.1
      · exact hinv.2 e h1
    · simp [mapSet, mapKeys]
  refine ⟨hkeys, ?_⟩
  intro r hr e he
  obtain ⟨hpc, pm⟩ := maps
  simp only [HealthProbesCollection, hm, Except.ok.injEq] at hr
  subst hr
  obtain ⟨_, hnamed⟩ := newProbesMap_collection_named c roIDs ingressList _ hm
  have hk := hkeys e he
  simp only [mapKeys, List.mem_map] at hk
  obtain ⟨entry, hentry, hname⟩ := hk
  refine ⟨entry.2, ?_, ?_⟩
  · apply (sortSort_perm _ _).mem_iff.mpr
    apply List.mem_map_of_mem
    exact (roProbes.perm hpc).mem_iff.mpr hentry
  · rw [hnamed entry hentry, hname]

/-- Witness of C20: in the sample cluster the three backend identifiers hold probes of
two names, both keys of the collection. -/
theorem newProbesMap_names_resolve_witness :
    ∃ maps, newProbesMap sampleBuilder (RangeOrder.stored backendIdentifier)
        [webIngress, lostIngress] = Except.ok maps ∧
      maps.2.map (fun e => e.2.Name) =
        [".s.v.c.1-.8.0-.w.e.b-", ".s.v.c.1-.8.0-.w.e.b-", "defaultprobe"] ∧
      ∀ e ∈ maps.2, e.2.Name ∈ mapKeys maps.1 := by
  have h := newProbesMap_names_resolve sampleBuilder (RangeOrder.stored backendIdentifier)
    (RangeOrder.stored (String × ApplicationGatewayProbe)) [webIngress, lostIngress]
  obtain ⟨maps, hm⟩ := h.1 (by decide)
  refine ⟨maps, hm, ?_, (h.2 maps hm).1⟩
  have hv : (newProbesMap sampleBuilder (RangeOrder.stored backendIdentifier)
      [webIngress, lostIngress]).toOption.map
        (fun m => m.2.map (fun e => e.2.Name)) =
      some [".s.v.c.1-.8.0-.w.e.b-", ".s.v.c.1-.8.0-.w.e.b-", "defaultprobe"] := by
    decide
  rw [hm] at hv
  simpa [Except.toOption] using hv

end AppGw
